import Mathlib

/-!
# Verification development for the DEX client-side real-time state core

Shallow embedding of the event-sourced state store
(`apps/web-ui/src/state/reducers.ts`, `apps/web-ui/src/state/types.ts`,
store class) and of the reconnecting WebSocket transport client
(`apps/web-ui/src/ws/ws-client.ts`).

Modelling conventions:
* JavaScript `Map` objects become insertion-ordered association lists
  (`jsMapGet` / `jsMapSet` / `jsMapDelete`), matching `Map` iteration order
  and in-place update semantics.
* JavaScript `Set` objects (insertion ordered, used for `seenIds`) become
  `List String` with `jsSetAdd` appending only new elements.
* String-encoded integer sequences (always manipulated through `BigInt` in
  the source) are modelled as `Nat` values; `compareSeq` mirrors the
  `BigInt` comparison of `reducers.ts` / `ws-client.ts`.
* The `Number(...)` conversions the source applies to `lastSeq` when it
  builds `snapshot_since` recovery requests are modelled by `natToFloat64`,
  the exact IEEE-754 binary64 round-to-nearest-even value of a natural
  number (for inputs below 2^1024).
* Event payloads are JavaScript objects with structurally optional fields
  (or `null`); `Payload.obj` carries every field the store ever reads, each
  as an `Option`.  Places where the TypeScript code would throw a
  `TypeError` (property access on `null`, spreading a missing array) are
  modelled with `Except String`.
* Listener callbacks are modelled by ghost logs: `ghostApplied` records the
  per-stream sequence of applied events, `ghostRequests` records emitted
  snapshot-recovery requests, and the WS client records sent frames and
  events delivered to handlers.
-/

set_option maxRecDepth 10000

namespace Dex

/-! ## JavaScript collection primitives -/

/-- Lookup in an insertion-ordered association list (JS `Map.get`). -/
def jsMapGet {α β : Type} [DecidableEq α] : List (α × β) → α → Option β
  | [], _ => none
  | (k', v') :: t, k => if k' = k then some v' else jsMapGet t k

/-- Insert/overwrite in an insertion-ordered association list (JS `Map.set`):
an existing key keeps its position, a new key is appended at the end. -/
def jsMapSet {α β : Type} [DecidableEq α] : List (α × β) → α → β → List (α × β)
  | [], k, v => [(k, v)]
  | (k', v') :: t, k, v =>
    if k' = k then (k', v) :: t else (k', v') :: jsMapSet t k v

/-- Remove a key (JS `Map.delete`). -/
def jsMapDelete {α β : Type} [DecidableEq α] : List (α × β) → α → List (α × β)
  | [], _ => []
  | (k', v') :: t, k => if k' = k then t else (k', v') :: jsMapDelete t k

/-- JS `Set.add`: append, but only if the element is not already present
(re-adding never moves an element). -/
def jsSetAdd (l : List String) (x : String) : List String :=
  if l.contains x then l else l ++ [x]

/-! ## Numeric primitives -/

/-- `compareSeq` from `reducers.ts` / `ws-client.ts`: BigInt comparison of two
string-encoded integer sequences, returning -1 / 0 / 1. -/
def compareSeq (a b : Nat) : Int :=
  if a < b then -1 else if b < a then 1 else 0

/-- Fuel-bounded base-2 logarithm (structurally recursive, so that it
evaluates inside the kernel). -/
def log2Aux : Nat → Nat → Nat
  | 0, _ => 0
  | fuel + 1, n => if n ≥ 2 then log2Aux fuel (n / 2) + 1 else 0

/-- Base-2 logarithm: `natLog2 n` is the position of the highest set bit. -/
def natLog2 (n : Nat) : Nat := log2Aux n n

/-- The value of an IEEE-754 binary64 (`Number`) holding the natural number
`n`: exact below 2^53, otherwise rounded to the nearest representable
integer with ties to even (valid for n < 2^1024, far beyond any sequence).
Models the JavaScript `Number(string)` conversion applied to `lastSeq`. -/
def natToFloat64 (n : Nat) : Nat :=
  if n ≤ 2 ^ 53 then n
  else
    let p := 2 ^ (natLog2 n - 52)
    let q := n / p
    let r := n % p
    if 2 * r < p then q * p
    else if 2 * r > p then (q + 1) * p
    else if q % 2 = 0 then q * p else (q + 1) * p

/-- Parse a plain decimal literal (optional sign, digits, optional fraction)
to a scaled integer: `some (m, d)` denotes the rational `m / 10^d`.
Models `parseFloat` on the decimal price strings the exchange transports;
any other string is treated as NaN (`none`). -/
def parseDec (s : String) : Option (Int × Nat) :=
  let cs := s.toList
  let (neg, cs) := match cs with
    | '-' :: t => (true, t)
    | t => (false, t)
  let intPart := cs.takeWhile (·.isDigit)
  let rest := cs.drop intPart.length
  let fracPart :=
    match rest with
    | '.' :: t => if t.all (·.isDigit) then some t else none
    | [] => some []
    | _ => none
  match fracPart with
  | none => none
  | some f =>
    if intPart.length + f.length = 0 then none
    else
      let mag : Nat := (intPart ++ f).foldl (fun n c => n * 10 + (c.toNat - 48)) 0
      some (if neg then -(mag : Int) else (mag : Int), f.length)

/-- Lexicographic code-unit comparison of character lists. -/
def charListLe : List Char → List Char → Bool
  | [], _ => true
  | _ :: _, [] => false
  | a :: as, b :: bs =>
    if a.toNat < b.toNat then true
    else if b.toNat < a.toNat then false
    else charListLe as bs

/-- The default JavaScript string ordering (`Array.prototype.sort` without a
comparator): lexicographic on code units. -/
def strLe (a b : String) : Bool :=
  charListLe a.toList b.toList

/-- `comparePriceAsc` from `reducers.ts`: numeric comparison of two decimal
price strings (sign only; a NaN comparator result sorts as equal, per the
ECMAScript `SortCompare` rule). -/
def comparePriceAsc (a b : String) : Int :=
  match parseDec a, parseDec b with
  | some (m₁, d₁), some (m₂, d₂) =>
    let x := m₁ * (10 : Int) ^ d₂
    let y := m₂ * (10 : Int) ^ d₁
    if x < y then -1 else if y < x then 1 else 0
  | _, _ => 0

/-! ## Event envelope and payloads (`types/generated-types.ts`, `state/types.ts`) -/

/-- A single price level `[price, quantity]`; quantity "0" means remove. -/
abbrev PriceLevel := String × String

/-- An exchange order; the store only ever reads `order_id` (it keys order
maps by it and stores the record opaquely), so the remaining fields are
collapsed into their identifier. -/
structure Order where
  order_id : String
  deriving DecidableEq, Repr

/-- A JavaScript event-payload object: every field any store code path reads,
each structurally optional (`none` = field absent). -/
structure PayloadObj where
  symbol : Option String := none
  bids : Option (List PriceLevel) := none
  asks : Option (List PriceLevel) := none
  last_price : Option String := none
  volume_24h : Option String := none
  high_24h : Option String := none
  low_24h : Option String := none
  mark_price : Option String := none
  price : Option String := none
  quantity : Option String := none
  side : Option String := none
  account_id : Option String := none
  balances : Option (List (String × String)) := none
  orders : Option (List Order) := none
  order : Option Order := none
  deriving DecidableEq, Repr

/-- An event payload: either `null` or an object. -/
inductive Payload where
  | null : Payload
  | obj : PayloadObj → Payload
  deriving DecidableEq, Repr

/-- `BaseEvent` envelope: `sequence` is transported as a decimal string and
manipulated through `BigInt`; it is modelled by its `Nat` value. -/
structure BaseEvent where
  event_id : String
  event_type : String
  sequence : Nat
  timestamp : String
  source : String
  payload : Payload
  deriving DecidableEq, Repr

/-! ## Domain projections (`state/types.ts`) -/

/-- Full orderbook state for a single symbol.  The `symbol` key can be a
missing field at runtime (payload without `symbol`), hence `Option`. -/
structure OrderbookState where
  symbol : Option String
  bids : List PriceLevel
  asks : List PriceLevel
  lastSeq : Nat
  deriving DecidableEq, Repr

/-- Aggregated ticker state for a single symbol. -/
structure TickerState where
  symbol : Option String
  last_price : String
  volume_24h : String
  high_24h : String
  low_24h : String
  mark_price : String
  lastSeq : Nat
  deriving DecidableEq, Repr

/-- A single recorded trade (fields copied from a structurally optional
payload, so they may be absent). -/
structure TradeRecord where
  event_id : String
  symbol : Option String
  price : Option String
  quantity : Option String
  side : Option String
  timestamp : String
  deriving DecidableEq, Repr

/-- Account state: balances plus live order map. -/
structure AccountState where
  account_id : Option String
  balances : List (String × String)
  orders : List (String × Order)
  lastSeq : Nat
  deriving DecidableEq, Repr

/-- Store metrics (`events_ignored`, `gaps_detected`, per-stream buffer
sizes). -/
structure Metrics where
  events_ignored : Nat
  gaps_detected : Nat
  buffer_size_by_stream : List (String × Nat)
  deriving DecidableEq, Repr

/-- Root state container: all domain projections plus metrics.  Maps are
keyed by the (possibly missing) symbol field, mirroring the JS `Map`s. -/
structure StoreState where
  orderbooks : List (Option String × OrderbookState)
  tickers : List (Option String × TickerState)
  trades : List (Option String × List TradeRecord)
  account : Option AccountState
  metrics : Metrics
  deriving DecidableEq, Repr

/-- Per-domain dedup metadata. -/
structure SeqMeta where
  lastSeq : Nat
  seenIds : List String
  deriving DecidableEq, Repr

/-! ## Pure reducers (`state/reducers.ts`) -/

/-- Maximum trade records kept per symbol. -/
def MAX_TRADES_PER_SYMBOL : Nat := 500

/-- Maximum seen event IDs in the dedup set before eviction. -/
def MAX_SEEN_IDS : Nat := 10000

/-- `isDuplicate` from `reducers.ts`: already-seen `event_id`, or (for
non-snapshots) `sequence ≤ lastSeq`. -/
def isDuplicate (event : BaseEvent) (meta : SeqMeta) : Bool :=
  if meta.seenIds.contains event.event_id then true
  else if event.event_type ≠ "snapshot" ∧ compareSeq event.sequence meta.lastSeq ≤ 0 then true
  else false

/-- `recordEvent` from `reducers.ts`: add the id to `seenIds` (evicting
oldest-first past `MAX_SEEN_IDS`) and raise `lastSeq` to the event's
sequence when it is larger. -/
def recordEvent (event : BaseEvent) (meta : SeqMeta) : SeqMeta :=
  let newSeen := jsSetAdd meta.seenIds event.event_id
  let newSeen :=
    if newSeen.length > MAX_SEEN_IDS then
      newSeen.drop (newSeen.length - MAX_SEEN_IDS)
    else newSeen
  let newSeq :=
    if compareSeq event.sequence meta.lastSeq > 0 then event.sequence else meta.lastSeq
  { lastSeq := newSeq, seenIds := newSeen }

/-- `mergeLevels` from `reducers.ts`: build a price → quantity map from the
existing levels, apply the updates (quantity "0" deletes, otherwise upsert),
then re-emit the entries sorted by numeric price. -/
def mergeLevels (existing updates : List PriceLevel) (sortDescending : Bool) :
    List PriceLevel :=
  let map := existing.foldl (fun m pq => jsMapSet m pq.1 pq.2) []
  let map := updates.foldl
    (fun m pq => if pq.2 = "0" then jsMapDelete m pq.1 else jsMapSet m pq.1 pq.2) map
  map.insertionSort (fun a b =>
    (if sortDescending then -(comparePriceAsc a.1 b.1) else comparePriceAsc a.1 b.1) ≤ 0)

/-- `applyOrderbookSnapshot` from `reducers.ts`: replace bids/asks wholesale,
bids sorted descending and asks ascending by numeric price. -/
def applyOrderbookSnapshot (symbol : Option String) (bids asks : List PriceLevel)
    (sequence : Nat) : OrderbookState :=
  { symbol := symbol
    bids := bids.insertionSort (fun a b => comparePriceAsc b.1 a.1 ≤ 0)
    asks := asks.insertionSort (fun a b => comparePriceAsc a.1 b.1 ≤ 0)
    lastSeq := sequence }

/-- `applyOrderbookDelta` from `reducers.ts`: merge the sides present in the
payload into the current book. -/
def applyOrderbookDelta (current : OrderbookState) (p : PayloadObj)
    (sequence : Nat) : OrderbookState :=
  { current with
    bids := match p.bids with
      | some upd => mergeLevels current.bids upd true
      | none => current.bids
    asks := match p.asks with
      | some upd => mergeLevels current.asks upd false
      | none => current.asks
    lastSeq := sequence }

/-- `freshTicker` from `reducers.ts`: a ticker created from the first delta,
missing fields defaulted to "0". -/
def freshTicker (p : PayloadObj) (sequence : Nat) : TickerState :=
  { symbol := p.symbol
    last_price := p.last_price.getD "0"
    volume_24h := p.volume_24h.getD "0"
    high_24h := p.high_24h.getD "0"
    low_24h := p.low_24h.getD "0"
    mark_price := p.mark_price.getD "0"
    lastSeq := sequence }

/-- `applyTickerDelta` from `reducers.ts`: fields present overwrite, fields
absent keep their prior value. -/
def applyTickerDelta (current : Option TickerState) (p : PayloadObj)
    (sequence : Nat) : TickerState :=
  match current with
  | none => freshTicker p sequence
  | some c =>
    { c with
      last_price := p.last_price.getD c.last_price
      volume_24h := p.volume_24h.getD c.volume_24h
      high_24h := p.high_24h.getD c.high_24h
      low_24h := p.low_24h.getD c.low_24h
      mark_price := p.mark_price.getD c.mark_price
      lastSeq := sequence }

/-- `applyTrade` from `reducers.ts`: append the record and drop oldest
entries past `MAX_TRADES_PER_SYMBOL`. -/
def applyTrade (current : List TradeRecord) (event : BaseEvent) (p : PayloadObj) :
    List TradeRecord :=
  let record : TradeRecord :=
    { event_id := event.event_id
      symbol := p.symbol
      price := p.price
      quantity := p.quantity
      side := p.side
      timestamp := event.timestamp }
  let next := current ++ [record]
  if next.length > MAX_TRADES_PER_SYMBOL then
    next.drop (next.length - MAX_TRADES_PER_SYMBOL)
  else next

/-- `applyAccountSnapshot` from `reducers.ts`: replace balances wholesale and
key the payload's order array by `order_id`. -/
def applyAccountSnapshot (p : PayloadObj) (sequence : Nat) : AccountState :=
  let orders :=
    match p.orders with
    | some os => os.foldl (fun m o => jsMapSet m o.order_id o) []
    | none => []
  { account_id := p.account_id
    balances := p.balances.getD []
    orders := orders
    lastSeq := sequence }

/-- `applyAccountDelta` from `reducers.ts`: merge balance updates field-wise
and upsert an order when present. -/
def applyAccountDelta (current : AccountState) (p : PayloadObj)
    (sequence : Nat) : AccountState :=
  let newBalances :=
    match p.balances with
    | some upd => upd.foldl (fun m kv => jsMapSet m kv.1 kv.2) current.balances
    | none => current.balances
  let newOrders :=
    match p.order with
    | some o => jsMapSet current.orders o.order_id o
    | none => current.orders
  { current with balances := newBalances, orders := newOrders, lastSeq := sequence }

/-! ## The state store (`DexStateStore` in `state/types.ts` / `store.ts`) -/

/-- A store-initiated snapshot-recovery request, as handed to
`onRequestSnapshot` listeners: `(channel, params, sinceSeq)`. -/
structure SnapRequest where
  channel : String
  params : List (String × String)
  sinceSeq : Nat
  deriving DecidableEq, Repr

/-- The `DexStateStore` instance state.  `ghostApplied` (per-domain-key list
of `(isSnapshot, sequence)` pairs, in application order) and `ghostRequests`
(emitted snapshot requests, oldest first) are ghost observation logs of the
reducer applications and `onRequestSnapshot` callbacks. -/
structure DexStateStore where
  state : StoreState
  seqMeta : List (String × SeqMeta)
  deltaBuffers : List (String × List BaseEvent)
  ghostApplied : List (String × List (Bool × Nat))
  ghostRequests : List SnapRequest
  deriving DecidableEq, Repr

/-- Per-stream delta buffer cap (`MAX_BUFFER_SIZE`). -/
def MAX_BUFFER_SIZE : Nat := 10000

/-- The freshly constructed store. -/
def initStore : DexStateStore :=
  { state :=
      { orderbooks := [], tickers := [], trades := [], account := none
        metrics := { events_ignored := 0, gaps_detected := 0, buffer_size_by_stream := [] } }
    seqMeta := []
    deltaBuffers := []
    ghostApplied := []
    ghostRequests := [] }

/-- `domainKey`: `"<source>::<symbol>"` when the payload carries a non-empty
`symbol`, otherwise just the source channel. -/
def domainKey (event : BaseEvent) : String :=
  let symbol :=
    match event.payload with
    | .null => ""
    | .obj p => p.symbol.getD ""
  if symbol ≠ "" then event.source ++ "::" ++ symbol else event.source

/-- `getSeqMeta`: per-key metadata, defaulting to `lastSeq = 0`, empty
`seenIds`. -/
def metaAt (s : DexStateStore) (key : String) : SeqMeta :=
  (jsMapGet s.seqMeta key).getD { lastSeq := 0, seenIds := [] }

/-- The per-key delta buffer (empty when the key has no buffer yet). -/
def bufferAt (s : DexStateStore) (key : String) : List BaseEvent :=
  (jsMapGet s.deltaBuffers key).getD []

/-- The per-key ghost log of applied events. -/
def appliedLogAt (s : DexStateStore) (key : String) : List (Bool × Nat) :=
  (jsMapGet s.ghostApplied key).getD []

/-- `lastSeq` cursor of a domain key. -/
def lastSeqAt (s : DexStateStore) (key : String) : Nat :=
  (metaAt s key).lastSeq

/-- Increment `events_ignored`. -/
def incIgnored (s : DexStateStore) : DexStateStore :=
  { s with state := { s.state with metrics :=
      { s.state.metrics with events_ignored := s.state.metrics.events_ignored + 1 } } }

/-- Increment `gaps_detected`. -/
def incGaps (s : DexStateStore) : DexStateStore :=
  { s with state := { s.state with metrics :=
      { s.state.metrics with gaps_detected := s.state.metrics.gaps_detected + 1 } } }

/-- Record a reducer application in the ghost log. -/
def logApply (s : DexStateStore) (key : String) (isSnap : Bool) (seq : Nat) :
    DexStateStore :=
  { s with ghostApplied :=
      jsMapSet s.ghostApplied key (appliedLogAt s key ++ [(isSnap, seq)]) }

/-- The snapshot-request parameters `triggerSnapshotRequest` builds from an
event's payload: `symbol` / `account_id`, skipping empty strings (the falsy
checks of the source). -/
def requestParams (event : BaseEvent) : List (String × String) :=
  let (symbol, account_id) :=
    match event.payload with
    | .null => ("", "")
    | .obj p => (p.symbol.getD "", p.account_id.getD "")
  (if symbol ≠ "" then [("symbol", symbol)] else []) ++
    (if account_id ≠ "" then [("account_id", account_id)] else [])

/-- `triggerSnapshotRequest`: notify `onRequestSnapshot` listeners with the
event's channel, its payload-derived params and `sinceSeq` — modelled by
appending to `ghostRequests`. -/
def triggerSnapshotRequest (s : DexStateStore) (event : BaseEvent) (sinceSeq : Nat) :
    DexStateStore :=
  { s with ghostRequests :=
      s.ghostRequests ++
        [{ channel := event.source, params := requestParams event, sinceSeq := sinceSeq }] }

/-- Overwrite the buffer of a key and its `buffer_size_by_stream` metric. -/
def setBufferWithMetric (s : DexStateStore) (key : String) (buffer : List BaseEvent) :
    DexStateStore :=
  { s with
    deltaBuffers := jsMapSet s.deltaBuffers key buffer
    state := { s.state with metrics :=
      { s.state.metrics with buffer_size_by_stream :=
          (jsMapSet s.state.metrics.buffer_size_by_stream key buffer.length) } } }

/-- `bufferDelta`: push the event onto the per-key buffer; on overflow
(`length > MAX_BUFFER_SIZE`) clear the buffer and request a full snapshot
(`sinceSeq = 0`), otherwise request a snapshot since the recorded `lastSeq`
(which the source converts with `Number(...)`, hence `natToFloat64`). -/
def bufferDelta (s : DexStateStore) (key : String) (event : BaseEvent) :
    DexStateStore :=
  let buffer := bufferAt s key ++ [event]
  let s := setBufferWithMetric s key buffer
  if buffer.length > MAX_BUFFER_SIZE then
    let s := setBufferWithMetric s key []
    triggerSnapshotRequest s event 0
  else
    triggerSnapshotRequest s event (natToFloat64 (metaAt s key).lastSeq)

/-- `applyEvent`: route an event by `source` / `event_type` to the matching
reducer.  `.error` marks the places where the TypeScript code would throw a
`TypeError`: property access on a `null` payload, or spreading a missing
`bids` / `asks` array in the orderbook-snapshot reducer. -/
def applyEventE (st : StoreState) (event : BaseEvent) : Except String StoreState :=
  if event.source = "market_data" then
    if event.event_type = "snapshot" then
      match event.payload with
      | .null => .error "TypeError: cannot read properties of null"
      | .obj p =>
        match p.bids, p.asks with
        | some bids, some asks =>
          .ok { st with orderbooks :=
            (jsMapSet st.orderbooks p.symbol
              (applyOrderbookSnapshot p.symbol bids asks event.sequence)) }
        | _, _ => .error "TypeError: payload bids/asks is not iterable"
    else if event.event_type = "delta" then
      match event.payload with
      | .null => .error "TypeError: cannot read properties of null"
      | .obj p =>
        let st :=
          if p.bids.isSome ∨ p.asks.isSome then
            match jsMapGet st.orderbooks p.symbol with
            | some current =>
              { st with orderbooks :=
                  (jsMapSet st.orderbooks p.symbol
                    (applyOrderbookDelta current p event.sequence)) }
            | none => st
          else st
        if p.last_price.isSome ∨ p.volume_24h.isSome ∨ p.high_24h.isSome ∨
            p.low_24h.isSome ∨ p.mark_price.isSome then
          .ok { st with tickers :=
            (jsMapSet st.tickers p.symbol
              (applyTickerDelta (jsMapGet st.tickers p.symbol) p event.sequence)) }
        else .ok st
    else .ok st
  else if event.source = "trades" then
    match event.payload with
    | .null => .error "TypeError: cannot read properties of null"
    | .obj p =>
      let current := (jsMapGet st.trades p.symbol).getD []
      .ok { st with trades := jsMapSet st.trades p.symbol (applyTrade current event p) }
  else if event.source = "account" then
    if event.event_type = "snapshot" then
      match event.payload with
      | .null => .error "TypeError: cannot read properties of null"
      | .obj p => .ok { st with account := some (applyAccountSnapshot p event.sequence) }
    else if event.event_type = "delta" then
      match st.account with
      | some current =>
        match event.payload with
        | .null => .error "TypeError: cannot read properties of null"
        | .obj p => .ok { st with account := some (applyAccountDelta current p event.sequence) }
      | none => .ok st
    else .ok st
  else .ok st

/-- Apply an event through the reducers and record it (`applyEvent` +
`recordEvent` + ghost log), for the in-order delta path and the flush loop. -/
def applyRecordE (s : DexStateStore) (key : String) (event : BaseEvent) :
    Except String DexStateStore :=
  match applyEventE s.state event with
  | .error e => .error e
  | .ok st =>
    .ok (logApply
      { s with state := st, seqMeta := jsMapSet s.seqMeta key (recordEvent event (metaAt s key)) }
      key (event.event_type = "snapshot") event.sequence)

/-- The `flushBuffer` scan: walk the sorted buffer, skipping duplicates
(counting `events_ignored`), applying events whose sequence is exactly
`lastSeq + 1`, and halting when a gap remains.  Returns the store and the
unconsumed suffix.  (An entry with `sequence ≤ lastSeq` that is *not* a
duplicate can only be a snapshot-typed event, which `bufferDelta` never
stores; the TypeScript loop would not terminate there, and the model halts.) -/
def flushGoE (s : DexStateStore) (key : String) :
    List BaseEvent → Except String (DexStateStore × List BaseEvent)
  | [] => .ok (s, [])
  | event :: rest =>
    let meta := metaAt s key
    if isDuplicate event meta then
      flushGoE (incIgnored s) key rest
    else if compareSeq event.sequence (meta.lastSeq + 1) = 0 then
      match applyRecordE s key event with
      | .error e => .error e
      | .ok s' => flushGoE s' key rest
    else .ok (s, event :: rest)

/-- `flushBuffer`: sort the per-key buffer by ascending sequence (in place —
the sorted order persists even when nothing is consumed), scan it with
`flushGoE`, and prune the consumed prefix (updating the buffer-size metric
only when something was consumed, as the source does). -/
def flushBufferE (s : DexStateStore) (key : String) : Except String DexStateStore :=
  let buffer := bufferAt s key
  if buffer.isEmpty then .ok s
  else
    let sorted := buffer.insertionSort (fun a b => compareSeq a.sequence b.sequence ≤ 0)
    let s := { s with deltaBuffers := jsMapSet s.deltaBuffers key sorted }
    match flushGoE s key sorted with
    | .error e => .error e
    | .ok (s', remaining) =>
      if sorted.length - remaining.length > 0 then
        .ok (setBufferWithMetric s' key remaining)
      else .ok s'

/-- `DexStateStore.dispatch`: snapshots are applied unconditionally (with
`lastSeq` forced to the snapshot's sequence) and flush the buffer; deltas are
dropped as duplicates, buffered on a gap (counting `gaps_detected` only when
`lastSeq > 0`), or applied in order followed by a buffer flush. -/
def dispatchE (s : DexStateStore) (event : BaseEvent) : Except String DexStateStore :=
  let key := domainKey event
  let meta := metaAt s key
  if event.event_type = "snapshot" then
    match applyEventE s.state event with
    | .error e => .error e
    | .ok st =>
      let nextMeta := { recordEvent event meta with lastSeq := event.sequence }
      let s := logApply
        { s with state := st, seqMeta := jsMapSet s.seqMeta key nextMeta }
        key true event.sequence
      flushBufferE s key
  else if isDuplicate event meta then
    .ok (incIgnored s)
  else
    let cmp := compareSeq event.sequence (meta.lastSeq + 1)
    if cmp > 0 ∧ meta.lastSeq ≠ 0 then
      .ok (bufferDelta (incGaps s) key event)
    else if cmp > 0 ∧ meta.lastSeq = 0 then
      .ok (bufferDelta s key event)
    else
      match applyRecordE s key event with
      | .error e => .error e
      | .ok s' => flushBufferE s' key

/-- Dispatch a list of events in order, propagating a thrown exception. -/
def runE (s : DexStateStore) : List BaseEvent → Except String DexStateStore
  | [] => .ok s
  | event :: rest =>
    match dispatchE s event with
    | .ok s' => runE s' rest
    | .error e => .error e

/-- The store resulting from dispatching `events` on a fresh store
(the initial store itself if some dispatch threw). -/
def runOr (events : List BaseEvent) : DexStateStore :=
  match runE initStore events with
  | .ok s => s
  | .error _ => initStore

/-! ## The transport client (`ws/ws-client.ts`) -/

/-- Per-subscription record: saved key (channel + params) and the highest
sequence observed or acknowledged. -/
structure SubscriptionState where
  channel : String
  params : List (String × String)
  lastSeq : Nat
  deriving DecidableEq, Repr

/-- Client → server frames produced by `_send`. -/
inductive Frame where
  | subscribeF (channel : String) (params : List (String × String))
  | unsubscribeF (channel : String) (params : List (String × String))
  | snapshotSinceF (channel : String) (params : List (String × String)) (last_seq : Nat)
  | pongF
  deriving DecidableEq, Repr

/-- The observable fate of a `subscribe()` promise. -/
inductive PromiseStatus where
  | pending
  | resolved
  | rejected
  deriving DecidableEq, Repr

/-- Outcome of a `subscribe()` call: resolved immediately (already-active
key), or registered as a pending attempt. -/
inductive SubscribeOutcome where
  | alreadyActive
  | pendingRegistered (promiseId : Nat)
  deriving DecidableEq, Repr

/-- Server → client frames, as discriminated by `_handleMessage`: control
frames carry a `type` field; anything with `event_id` and `sequence` is a
data event. -/
inductive ServerMessage where
  | connectedF (session_id : String)
  | pingF
  | subscribedF (channel : String) (params : List (String × String)) (snapshot_seq : Nat)
  | unsubscribedF (channel : String) (params : List (String × String))
  | snapshotSinceResponseF (channel : String) (from_seq to_seq : Nat)
      (events : List BaseEvent)
  | errorF (code : String) (message : String)
  | eventF (event : BaseEvent)
  deriving DecidableEq, Repr

/-- `DexWebSocketClient` state.  `promises` is a ghost registry of every
promise a `subscribe()` call created (indexed by creation order; the
`pendingSubs` map stores the index of the resolver currently registered for
a key).  `sentFrames`, `handledEvents` (events forwarded to `onEvent`
handlers) and `errorCalls` (arguments of `onError` invocations) are ghost
observation logs. -/
structure WsClient where
  sessionId : Option String
  reconnectAttempt : Nat
  recovering : Bool
  subscriptions : List (String × SubscriptionState)
  pendingSubs : List (String × Nat)
  promises : List PromiseStatus
  sentFrames : List Frame
  handledEvents : List BaseEvent
  errorCalls : List (String × String)
  deriving DecidableEq, Repr

/-- A freshly constructed client. -/
def initClient : WsClient :=
  { sessionId := none, reconnectAttempt := 0, recovering := false
    subscriptions := [], pendingSubs := [], promises := []
    sentFrames := [], handledEvents := [], errorCalls := [] }

/-- `subKey`: deterministic subscription key — channel plus the params as
`k=v` pairs sorted by key and joined with `&`. -/
def subKey (channel : String) (params : List (String × String)) : String :=
  let sortedKeys := (params.map Prod.fst).insertionSort (fun a b => strLe a b = true)
  let parts := sortedKeys.map (fun k => k ++ "=" ++ ((jsMapGet params k).getD "undefined"))
  channel ++ "::" ++ String.intercalate "&" parts

/-- `subscribe(channel, params)`: an already-active key resolves immediately
and sends nothing; otherwise a new promise is registered under the key (any
previously pending promise for the key is orphaned) and a subscribe frame is
sent. -/
def subscribe (c : WsClient) (channel : String) (params : List (String × String)) :
    WsClient × SubscribeOutcome :=
  let key := subKey channel params
  if (jsMapGet c.subscriptions key).isSome then
    (c, .alreadyActive)
  else
    let promiseId := c.promises.length
    ({ c with
        pendingSubs := jsMapSet c.pendingSubs key promiseId
        promises := c.promises ++ [.pending]
        sentFrames := c.sentFrames ++ [.subscribeF channel params] },
     .pendingRegistered promiseId)

/-- `unsubscribe(channel, params)`: remove local state unconditionally and
send an unsubscribe frame (fire and forget). -/
def unsubscribe (c : WsClient) (channel : String) (params : List (String × String)) :
    WsClient :=
  { c with
    subscriptions := jsMapDelete c.subscriptions (subKey channel params)
    sentFrames := c.sentFrames ++ [.unsubscribeF channel params] }

/-- `_requestSnapshotSince`: set the recovering flag and send a
`snapshot_since` frame whose `last_seq` is `Number(sub.lastSeq)` — the
binary64 rounding of the saved cursor. -/
def requestSnapshotSince (c : WsClient) (sub : SubscriptionState) : WsClient :=
  { c with
    recovering := true
    sentFrames := c.sentFrames ++
      [.snapshotSinceF sub.channel sub.params (natToFloat64 sub.lastSeq)] }

/-- One subscription-entry step of the `_handleEvent` loop: advance the
cursor when the event's sequence is ahead of it. -/
def advanceSub (event : BaseEvent) (sub : SubscriptionState) : SubscriptionState :=
  if compareSeq event.sequence sub.lastSeq > 0 then
    { sub with lastSeq := event.sequence }
  else sub

/-- The `_handleEvent` scan over the subscription map: entries on the
event's channel either trigger gap detection (sequence beyond `lastSeq + 1`
while not recovering — processing stops there, later entries untouched) or
have their cursor advanced.  Returns the updated entries and the
subscription that detected a gap, if any. -/
def scanSubs (event : BaseEvent) (recovering : Bool) :
    List (String × SubscriptionState) →
      Option SubscriptionState × List (String × SubscriptionState)
  | [] => (none, [])
  | (key, sub) :: rest =>
    if sub.channel = event.source then
      if compareSeq event.sequence (sub.lastSeq + 1) > 0 ∧ ¬recovering then
        (some sub, (key, sub) :: rest)
      else
        let (gap, rest') := scanSubs event recovering rest
        (gap, (key, advanceSub event sub) :: rest')
    else
      let (gap, rest') := scanSubs event recovering rest
      (gap, (key, sub) :: rest')

/-- `_handleEvent`: track sequences per subscription; on a detected gap
request recovery and drop the event, otherwise forward it to the channel's
registered handlers (ghost-logged in `handledEvents`). -/
def handleEvent (c : WsClient) (event : BaseEvent) : WsClient :=
  match scanSubs event c.recovering c.subscriptions with
  | (some gapSub, subs') =>
    requestSnapshotSince { c with subscriptions := subs' } gapSub
  | (none, subs') =>
    { c with subscriptions := subs', handledEvents := c.handledEvents ++ [event] }

/-- `_handleSnapshotSince`: replay each event of the batch through the same
cursor-advance and handler pathway, then clear the recovering flag. -/
def handleSnapshotSince (c : WsClient) (channel : String) (events : List BaseEvent) :
    WsClient :=
  let c := events.foldl
    (fun c event =>
      { c with
        subscriptions := c.subscriptions.map (fun kv =>
          if kv.2.channel = channel then (kv.1, advanceSub event kv.2) else kv)
        handledEvents := c.handledEvents ++ [event] })
    c
  { c with recovering := false }

/-- `_handleMessage`: discriminate control frames by `type` and route data
events to `_handleEvent`.  On `subscribed`, the subscription is recorded and
the pending promise for exactly that key is resolved; on `error`, only the
`onError` handler is invoked. -/
def handleMessage (c : WsClient) (msg : ServerMessage) : WsClient :=
  match msg with
  | .connectedF session_id =>
    { c with sessionId := some session_id, reconnectAttempt := 0 }
  | .pingF =>
    { c with sentFrames := c.sentFrames ++ [.pongF] }
  | .subscribedF channel params snapshot_seq =>
    let key := subKey channel params
    let c := { c with subscriptions :=
      (jsMapSet c.subscriptions key
        { channel := channel, params := params, lastSeq := snapshot_seq }) }
    match jsMapGet c.pendingSubs key with
    | some promiseId =>
      { c with
        promises := c.promises.set promiseId .resolved
        pendingSubs := jsMapDelete c.pendingSubs key }
    | none => c
  | .unsubscribedF channel params =>
    { c with subscriptions := jsMapDelete c.subscriptions (subKey channel params) }
  | .snapshotSinceResponseF channel _ _ events =>
    handleSnapshotSince c channel events
  | .errorF code message =>
    { c with errorCalls := c.errorCalls ++ [(code, message)] }
  | .eventF event =>
    handleEvent c event

/-! ## Specification predicates -/

/-- The sequence of the most recently applied event on a stream's ghost log
(0 when nothing was applied yet). -/
def lastAppliedSeq : List (Bool × Nat) → Nat
  | [] => 0
  | [x] => x.2
  | _ :: t => lastAppliedSeq t

/-- Strict increase of *every* applied event over its predecessor, snapshots
included — the property claimed for applied-event sequences. -/
def strictIncrB : List (Bool × Nat) → Bool
  | [] => true
  | [_] => true
  | x :: y :: t => (decide (x.2 < y.2)) && strictIncrB (y :: t)

/-- Strict increase of every applied *delta* over its predecessor (a
snapshot entry — first component `true` — is exempt). -/
def deltaIncrB : List (Bool × Nat) → Bool
  | [] => true
  | [_] => true
  | x :: y :: t => (y.1 || decide (x.2 < y.2)) && deltaIncrB (y :: t)

/-- Per-side orderbook invariant: no two levels share a price string. -/
def pricesNodup : List PriceLevel → Bool
  | [] => true
  | (p, _) :: t => (!t.any (·.1 = p)) && pricesNodup t

/-- Per-side orderbook invariant: no level has quantity "0". -/
def noZeroQty (levels : List PriceLevel) : Bool :=
  levels.all (·.2 ≠ "0")

/-- Both invariants on both sides of a book. -/
def bookOk (b : OrderbookState) : Bool :=
  pricesNodup b.bids && noZeroQty b.bids && pricesNodup b.asks && noZeroQty b.asks

/-- Every orderbook projection of a store state satisfies `bookOk`. -/
def booksOk (st : StoreState) : Bool :=
  st.orderbooks.all (fun kv => bookOk kv.2)

/-- A market-data snapshot payload that respects the server contract: each
side it carries is price-unique with no zero quantities.  (Trivially true
for every other event.) -/
def snapPayloadOk (e : BaseEvent) : Bool :=
  if e.source = "market_data" ∧ e.event_type = "snapshot" then
    match e.payload with
    | .null => true
    | .obj p =>
      (match p.bids with
       | some bs => pricesNodup bs && noZeroQty bs
       | none => true) &&
      (match p.asks with
       | some as_ => pricesNodup as_ && noZeroQty as_
       | none => true)
  else true

/-- Structural well-formedness of an event for its source: the payload is an
object, and a market-data snapshot carries both level arrays.  Exactly the
events whose dispatch never reaches a throwing property access. -/
def wfEvent (e : BaseEvent) : Bool :=
  match e.payload with
  | .null => false
  | .obj p =>
    if e.source = "market_data" ∧ e.event_type = "snapshot" then
      p.bids.isSome && p.asks.isSome
    else true

/-! ## Demonstration events (the fixtures of `state/__tests__/store.test.ts`) -/

/-- The test fixture `makeSnapshot`: a market-data orderbook snapshot for
`BTC_USD`. -/
def demoSnapshot (seq : Nat) : BaseEvent :=
  { event_id := "snap-" ++ toString seq
    event_type := "snapshot"
    sequence := seq
    timestamp := "1000"
    source := "market_data"
    payload := .obj { symbol := some "BTC_USD"
                      bids := some [("50000.00", "1.0")]
                      asks := some [("50010.00", "1.0")] } }

/-- The test fixture `makeDelta`: a market-data orderbook delta for
`BTC_USD`. -/
def demoDelta (seq : Nat) : BaseEvent :=
  { event_id := "delta-" ++ toString seq
    event_type := "delta"
    sequence := seq
    timestamp := "1000"
    source := "market_data"
    payload := .obj { symbol := some "BTC_USD"
                      bids := some [(toString (50000 + seq), "0.5")] } }

/-! ## Association-list lemmas -/

section MapLemmas

variable {α β : Type} [DecidableEq α]

theorem jsMapGet_set_self (m : List (α × β)) (k : α) (v : β) :
    jsMapGet (jsMapSet m k v) k = some v := by
  induction m with
  | nil => simp [jsMapSet, jsMapGet]
  | cons hd t ih =>
    by_cases hk : hd.1 = k
    · simp [jsMapSet, jsMapGet, hk]
    · simp [jsMapSet, jsMapGet, hk, ih]

theorem jsMapGet_set_ne (m : List (α × β)) (k k' : α) (v : β) (h : k ≠ k') :
    jsMapGet (jsMapSet m k v) k' = jsMapGet m k' := by
  induction m with
  | nil => simp [jsMapSet, jsMapGet, h]
  | cons hd t ih =>
    rcases hd with ⟨a, b⟩
    by_cases hk : a = k
    · simp [jsMapSet, jsMapGet, hk, h, Ne.symm h]
    · by_cases hk' : a = k'
      · simp [jsMapSet, jsMapGet, hk, hk', h, Ne.symm h]
      · simp [jsMapSet, jsMapGet, hk, hk', ih]

theorem mem_jsMapSet {x : α × β} {m : List (α × β)} {k : α} {v : β}
    (h : x ∈ jsMapSet m k v) : x ∈ m ∨ x = (k, v) := by
  induction m with
  | nil => simp only [jsMapSet, List.mem_singleton] at h; exact Or.inr h
  | cons hd t ih =>
    rcases hd with ⟨a, b⟩
    by_cases hk : a = k
    · simp only [jsMapSet, if_pos hk, List.mem_cons] at h
      rcases h with h | h
      · right; rw [h, hk]
      · left; exact List.mem_cons_of_mem _ h
    · simp only [jsMapSet, if_neg hk, List.mem_cons] at h
      rcases h with h | h
      · left; exact h ▸ List.mem_cons_self _ _
      · rcases ih h with h' | h'
        · left; exact List.mem_cons_of_mem _ h'
        · right; exact h'

theorem mem_jsMapDelete {x : α × β} {m : List (α × β)} {k : α}
    (h : x ∈ jsMapDelete m k) : x ∈ m := by
  induction m with
  | nil => simp [jsMapDelete] at h
  | cons hd t ih =>
    rcases hd with ⟨a, b⟩
    by_cases hk : a = k
    · simp only [jsMapDelete, if_pos hk] at h
      exact List.mem_cons_of_mem _ h
    · simp only [jsMapDelete, if_neg hk, List.mem_cons] at h
      rcases h with h | h
      · exact h ▸ List.mem_cons_self _ _
      · exact List.mem_cons_of_mem _ (ih h)

theorem jsMapGet_mem {m : List (α × β)} {k : α} {v : β}
    (h : jsMapGet m k = some v) : (k, v) ∈ m := by
  induction m with
  | nil => simp [jsMapGet] at h
  | cons hd t ih =>
    rcases hd with ⟨a, b⟩
    by_cases hk : a = k
    · simp only [jsMapGet, if_pos hk, Option.some.injEq] at h
      have hx : (k, v) = (a, b) := by rw [hk, h]
      rw [hx]
      exact List.mem_cons_self _ _
    · simp only [jsMapGet, if_neg hk] at h
      exact List.mem_cons_of_mem _ (ih h)

theorem keys_jsMapSet_sub {a : α} {m : List (α × β)} {k : α} {v : β}
    (h : a ∈ (jsMapSet m k v).map Prod.fst) : a ∈ m.map Prod.fst ∨ a = k := by
  simp only [List.mem_map] at h ⊢
  rcases h with ⟨x, hx, rfl⟩
  rcases mem_jsMapSet hx with h' | h'
  · exact Or.inl ⟨x, h', rfl⟩
  · exact Or.inr (by rw [h'])

theorem nodup_keys_jsMapSet {m : List (α × β)} (k : α) (v : β)
    (h : (m.map Prod.fst).Nodup) : ((jsMapSet m k v).map Prod.fst).Nodup := by
  induction m with
  | nil => simp [jsMapSet]
  | cons hd t ih =>
    rcases hd with ⟨a, b⟩
    simp only [List.map_cons, List.nodup_cons] at h
    by_cases hk : a = k
    · simp only [jsMapSet, if_pos hk, List.map_cons, List.nodup_cons]
      exact h
    · simp only [jsMapSet, if_neg hk, List.map_cons, List.nodup_cons]
      refine ⟨?_, ih h.2⟩
      intro hmem
      rcases keys_jsMapSet_sub hmem with h' | h'
      · exact h.1 h'
      · exact hk h'

theorem nodup_keys_jsMapDelete {m : List (α × β)} (k : α)
    (h : (m.map Prod.fst).Nodup) : ((jsMapDelete m k).map Prod.fst).Nodup := by
  induction m with
  | nil => simp [jsMapDelete]
  | cons hd t ih =>
    rcases hd with ⟨a, b⟩
    simp only [List.map_cons, List.nodup_cons] at h
    by_cases hk : a = k
    · simp only [jsMapDelete, if_pos hk]
      exact h.2
    · simp only [jsMapDelete, if_neg hk, List.map_cons, List.nodup_cons]
      refine ⟨?_, ih h.2⟩
      intro hmem
      simp only [List.mem_map] at hmem
      rcases hmem with ⟨x, hx, hfst⟩
      exact h.1 (List.mem_map.mpr ⟨x, mem_jsMapDelete hx, hfst⟩)

end MapLemmas

/-! ## Sequence-comparison lemmas -/

theorem compareSeq_pos_iff {a b : Nat} : compareSeq a b > 0 ↔ b < a := by
  unfold compareSeq; split_ifs <;> omega

theorem compareSeq_eq_zero_iff {a b : Nat} : compareSeq a b = 0 ↔ a = b := by
  unfold compareSeq; split_ifs <;> simp <;> omega

theorem compareSeq_nonpos_iff {a b : Nat} : compareSeq a b ≤ 0 ↔ a ≤ b := by
  unfold compareSeq; split_ifs <;> omega

theorem recordEvent_lastSeq (e : BaseEvent) (m : SeqMeta) :
    (recordEvent e m).lastSeq = max e.sequence m.lastSeq := by
  simp only [recordEvent]
  by_cases h : compareSeq e.sequence m.lastSeq > 0
  · have hlt := compareSeq_pos_iff.mp h
    simp only [if_pos h]
    exact (Nat.max_eq_left (Nat.le_of_lt hlt)).symm
  · have hle : e.sequence ≤ m.lastSeq := by
      by_contra hc
      have hlt : m.lastSeq < e.sequence := by omega
      exact h (compareSeq_pos_iff.mpr hlt)
    simp only [if_neg h]
    exact (Nat.max_eq_right hle).symm

theorem isDuplicate_of_le {e : BaseEvent} {m : SeqMeta}
    (h1 : e.event_type ≠ "snapshot") (h2 : e.sequence ≤ m.lastSeq) :
    isDuplicate e m = true := by
  unfold isDuplicate
  have hc : compareSeq e.sequence m.lastSeq ≤ 0 := compareSeq_nonpos_iff.mpr h2
  split_ifs with hseen hdup
  · rfl
  · rfl
  · exact absurd ⟨h1, hc⟩ hdup

theorem isDuplicate_false_lt {e : BaseEvent} {m : SeqMeta}
    (h1 : e.event_type ≠ "snapshot") (h : isDuplicate e m = false) :
    m.lastSeq < e.sequence := by
  by_contra hle
  rw [isDuplicate_of_le h1 (by omega)] at h
  simp at h

/-! ## Store accessor lemmas -/

@[simp] theorem metaAt_incIgnored (s : DexStateStore) (k : String) :
    metaAt (incIgnored s) k = metaAt s k := rfl

@[simp] theorem bufferAt_incIgnored (s : DexStateStore) (k : String) :
    bufferAt (incIgnored s) k = bufferAt s k := rfl

@[simp] theorem appliedLogAt_incIgnored (s : DexStateStore) (k : String) :
    appliedLogAt (incIgnored s) k = appliedLogAt s k := rfl

@[simp] theorem ghostRequests_incIgnored (s : DexStateStore) :
    (incIgnored s).ghostRequests = s.ghostRequests := rfl

@[simp] theorem metaAt_incGaps (s : DexStateStore) (k : String) :
    metaAt (incGaps s) k = metaAt s k := rfl

@[simp] theorem bufferAt_incGaps (s : DexStateStore) (k : String) :
    bufferAt (incGaps s) k = bufferAt s k := rfl

@[simp] theorem appliedLogAt_incGaps (s : DexStateStore) (k : String) :
    appliedLogAt (incGaps s) k = appliedLogAt s k := rfl

@[simp] theorem metaAt_logApply (s : DexStateStore) (k k' : String) (b : Bool) (n : Nat) :
    metaAt (logApply s k b n) k' = metaAt s k' := rfl

@[simp] theorem bufferAt_logApply (s : DexStateStore) (k k' : String) (b : Bool) (n : Nat) :
    bufferAt (logApply s k b n) k' = bufferAt s k' := rfl

@[simp] theorem ghostRequests_logApply (s : DexStateStore) (k : String) (b : Bool) (n : Nat) :
    (logApply s k b n).ghostRequests = s.ghostRequests := rfl

theorem appliedLogAt_logApply_self (s : DexStateStore) (k : String) (b : Bool) (n : Nat) :
    appliedLogAt (logApply s k b n) k = appliedLogAt s k ++ [(b, n)] := by
  simp [appliedLogAt, logApply, jsMapGet_set_self]

theorem appliedLogAt_logApply_ne (s : DexStateStore) (k k' : String) (b : Bool) (n : Nat)
    (h : k ≠ k') : appliedLogAt (logApply s k b n) k' = appliedLogAt s k' := by
  simp [appliedLogAt, logApply, jsMapGet_set_ne _ _ _ _ h]

@[simp] theorem metaAt_setBufferWithMetric (s : DexStateStore) (k k' : String)
    (buf : List BaseEvent) : metaAt (setBufferWithMetric s k buf) k' = metaAt s k' := rfl

@[simp] theorem appliedLogAt_setBufferWithMetric (s : DexStateStore) (k k' : String)
    (buf : List BaseEvent) :
    appliedLogAt (setBufferWithMetric s k buf) k' = appliedLogAt s k' := rfl

@[simp] theorem ghostRequests_setBufferWithMetric (s : DexStateStore) (k : String)
    (buf : List BaseEvent) :
    (setBufferWithMetric s k buf).ghostRequests = s.ghostRequests := rfl

theorem bufferAt_setBufferWithMetric_self (s : DexStateStore) (k : String)
    (buf : List BaseEvent) : bufferAt (setBufferWithMetric s k buf) k = buf := by
  simp [bufferAt, setBufferWithMetric, jsMapGet_set_self]

theorem bufferAt_setBufferWithMetric_ne (s : DexStateStore) (k k' : String)
    (buf : List BaseEvent) (h : k ≠ k') :
    bufferAt (setBufferWithMetric s k buf) k' = bufferAt s k' := by
  simp [bufferAt, setBufferWithMetric, jsMapGet_set_ne _ _ _ _ h]

@[simp] theorem metaAt_triggerSnapshotRequest (s : DexStateStore) (e : BaseEvent)
    (n : Nat) (k : String) : metaAt (triggerSnapshotRequest s e n) k = metaAt s k := rfl

@[simp] theorem bufferAt_triggerSnapshotRequest (s : DexStateStore) (e : BaseEvent)
    (n : Nat) (k : String) : bufferAt (triggerSnapshotRequest s e n) k = bufferAt s k := rfl

@[simp] theorem appliedLogAt_triggerSnapshotRequest (s : DexStateStore) (e : BaseEvent)
    (n : Nat) (k : String) :
    appliedLogAt (triggerSnapshotRequest s e n) k = appliedLogAt s k := rfl

@[simp] theorem ghostRequests_triggerSnapshotRequest (s : DexStateStore) (e : BaseEvent)
    (n : Nat) : (triggerSnapshotRequest s e n).ghostRequests =
      s.ghostRequests ++ [{ channel := e.source, params := requestParams e, sinceSeq := n }] := rfl

theorem metaAt_set_self (s : DexStateStore) (k : String) (m : SeqMeta) :
    metaAt { s with seqMeta := jsMapSet s.seqMeta k m } k = m := by
  simp [metaAt, jsMapGet_set_self]

theorem metaAt_set_ne (s : DexStateStore) (k k' : String) (m : SeqMeta) (h : k ≠ k') :
    metaAt { s with seqMeta := jsMapSet s.seqMeta k m } k' = metaAt s k' := by
  simp [metaAt, jsMapGet_set_ne _ _ _ _ h]

/-! ## `applyEventE` / `applyRecordE` elimination lemmas -/

/-- `applyEvent` never touches the metrics object. -/
theorem applyEventE_metrics {st st' : StoreState} {e : BaseEvent}
    (h : applyEventE st e = .ok st') : st'.metrics = st.metrics := by
  unfold applyEventE at h
  repeat' split at h
  all_goals first
    | (cases h; rfl)
    | cases h

/-- Destructure a successful `applyRecordE`. -/
theorem applyRecordE_ok {s : DexStateStore} {k : String} {e : BaseEvent}
    {s' : DexStateStore} (h : applyRecordE s k e = .ok s') :
    ∃ st, applyEventE s.state e = .ok st ∧
      s' = logApply
        { s with state := st,
                 seqMeta := jsMapSet s.seqMeta k (recordEvent e (metaAt s k)) }
        k (decide (e.event_type = "snapshot")) e.sequence := by
  unfold applyRecordE at h
  cases happ : applyEventE s.state e with
  | error msg => rw [happ] at h; cases h
  | ok st =>
    rw [happ] at h
    cases h
    exact ⟨st, rfl, rfl⟩

/-! ## Flush-loop elimination lemmas -/

/-- A successful `flushGoE` never touches the delta buffers or the request
log, only consumes buffer entries (the remainder is a sublist), and never
lowers any `lastSeq` cursor. -/
theorem flushGoE_ok {k : String} {l : List BaseEvent} :
    ∀ {s s' : DexStateStore} {rem : List BaseEvent},
    flushGoE s k l = .ok (s', rem) →
    s'.deltaBuffers = s.deltaBuffers ∧ s'.ghostRequests = s.ghostRequests ∧
      rem.Sublist l ∧ ∀ k', (metaAt s k').lastSeq ≤ (metaAt s' k').lastSeq := by
  induction l with
  | nil =>
    intro s s' rem h
    unfold flushGoE at h
    cases h
    exact ⟨rfl, rfl, List.Sublist.refl _, fun _ => le_refl _⟩
  | cons e rest ih =>
    intro s s' rem h
    simp only [flushGoE] at h
    by_cases hdup : isDuplicate e (metaAt s k) = true
    · rw [if_pos hdup] at h
      obtain ⟨h1, h2, h3, h4⟩ := ih h
      exact ⟨h1, h2, h3.cons _, h4⟩
    · rw [if_neg hdup] at h
      by_cases hcmp : compareSeq e.sequence ((metaAt s k).lastSeq + 1) = 0
      · rw [if_pos hcmp] at h
        cases happ : applyRecordE s k e with
        | error msg => rw [happ] at h; cases h
        | ok s₁ =>
          rw [happ] at h
          obtain ⟨h1, h2, h3, h4⟩ := ih h
          obtain ⟨st, hst, hs₁⟩ := applyRecordE_ok happ
          subst hs₁
          refine ⟨h1, h2, h3.cons _, fun k' => le_trans ?_ (h4 k')⟩
          by_cases hk : k = k'
          · subst hk
            simp only [metaAt_logApply]
            simp only [metaAt, logApply]
            simp only [jsMapGet_set_self, Option.getD_some, recordEvent_lastSeq]
            exact Nat.le_max_right _ _
          · simp only [metaAt_logApply]
            simp only [metaAt, logApply]
            simp only [jsMapGet_set_ne _ _ _ _ hk]
            exact le_refl _
      · rw [if_neg hcmp] at h
        cases h
        exact ⟨rfl, rfl, List.Sublist.refl _, fun _ => le_refl _⟩

/-- A successful `flushBufferE` preserves the request log, never lowers a
cursor, only shrinks buffers, and introduces no new buffered events. -/
theorem flushBufferE_ok {s s' : DexStateStore} {k : String}
    (h : flushBufferE s k = .ok s') :
    s'.ghostRequests = s.ghostRequests ∧
      (∀ k', (metaAt s k').lastSeq ≤ (metaAt s' k').lastSeq) ∧
      (∀ k', (bufferAt s' k').length ≤ (bufferAt s k').length) ∧
      (∀ k' e, e ∈ bufferAt s' k' → e ∈ bufferAt s k') := by
  simp only [flushBufferE] at h
  by_cases hemp : (bufferAt s k).isEmpty = true
  · rw [if_pos hemp] at h
    cases h
    exact ⟨rfl, fun _ => le_refl _, fun _ => le_refl _, fun _ _ he => he⟩
  · rw [if_neg hemp] at h
    set sorted := (bufferAt s k).insertionSort
        (fun a b => compareSeq a.sequence b.sequence ≤ 0)
      with hsorted
    have hperm : sorted.Perm (bufferAt s k) := List.perm_insertionSort _ _
    set s₀ : DexStateStore := { s with deltaBuffers := jsMapSet s.deltaBuffers k sorted }
      with hs₀
    have hbuf₀ : ∀ k', bufferAt s₀ k' = if k = k' then sorted else bufferAt s k' := by
      intro k'
      by_cases hk : k = k'
      · subst hk
        simp [bufferAt, hs₀, jsMapGet_set_self]
      · simp [bufferAt, hs₀, jsMapGet_set_ne _ _ _ _ hk, hk]
    cases hgo : flushGoE s₀ k sorted with
    | error msg => rw [hgo] at h; cases h
    | ok p =>
      rcases p with ⟨s₁, remaining⟩
      rw [hgo] at h
      obtain ⟨g1, g2, g3, g4⟩ := flushGoE_ok hgo
      have hmem : ∀ k' e, e ∈ bufferAt s₁ k' → e ∈ bufferAt s k' := by
        intro k' e he
        have : bufferAt s₁ k' = bufferAt s₀ k' := by simp [bufferAt, g1]
        rw [this, hbuf₀ k'] at he
        by_cases hk : k = k'
        · rw [if_pos hk] at he
          exact hk ▸ hperm.mem_iff.mp he
        · rwa [if_neg hk] at he
      have hlen : ∀ k', (bufferAt s₁ k').length ≤ (bufferAt s k').length := by
        intro k'
        have : bufferAt s₁ k' = bufferAt s₀ k' := by simp [bufferAt, g1]
        rw [this, hbuf₀ k']
        by_cases hk : k = k'
        · rw [if_pos hk, hperm.length_eq]
          exact hk ▸ le_refl _
        · rw [if_neg hk]
      replace h : (if sorted.length - remaining.length > 0 then
            Except.ok (setBufferWithMetric s₁ k remaining)
          else (Except.ok s₁ : Except String DexStateStore)) = Except.ok s' := h
      by_cases hcons : sorted.length - remaining.length > 0
      · rw [if_pos hcons] at h
        cases h
        refine ⟨g2, fun k' => g4 k', ?_, ?_⟩
        · intro k'
          by_cases hk : k = k'
          · subst hk
            rw [bufferAt_setBufferWithMetric_self]
            calc remaining.length ≤ sorted.length := g3.length_le
              _ = (bufferAt s k).length := hperm.length_eq
          · rw [bufferAt_setBufferWithMetric_ne _ _ _ _ hk]
            exact hlen k'
        · intro k' e he
          by_cases hk : k = k'
          · subst hk
            rw [bufferAt_setBufferWithMetric_self] at he
            exact hperm.mem_iff.mp (g3.mem he)
          · rw [bufferAt_setBufferWithMetric_ne _ _ _ _ hk] at he
            exact hmem k' e he
      · rw [if_neg hcons] at h
        cases h
        exact ⟨g2, fun k' => g4 k', hlen, hmem⟩

/-! ## Dispatch branch-characterization lemmas -/

/-- The duplicate branch: a non-snapshot duplicate only bumps
`events_ignored`. -/
theorem dispatchE_dup {s : DexStateStore} {e : BaseEvent}
    (hk : e.event_type ≠ "snapshot")
    (hd : isDuplicate e (metaAt s (domainKey e)) = true) :
    dispatchE s e = .ok (incIgnored s) := by
  simp only [dispatchE, if_neg hk, if_pos hd]

/-- The gap branch: beyond-expected sequence with a non-zero cursor counts a
gap and buffers. -/
theorem dispatchE_gap {s : DexStateStore} {e : BaseEvent}
    (hk : e.event_type ≠ "snapshot")
    (hd : isDuplicate e (metaAt s (domainKey e)) = false)
    (hz : (metaAt s (domainKey e)).lastSeq ≠ 0)
    (hseq : (metaAt s (domainKey e)).lastSeq + 1 < e.sequence) :
    dispatchE s e = .ok (bufferDelta (incGaps s) (domainKey e) e) := by
  have hcmp : compareSeq e.sequence ((metaAt s (domainKey e)).lastSeq + 1) > 0 :=
    compareSeq_pos_iff.mpr hseq
  simp only [dispatchE, if_neg hk, hd, Bool.false_eq_true, if_false]
  rw [if_pos ⟨hcmp, hz⟩]

/-- The pre-snapshot branch: beyond-expected sequence with a zero cursor
buffers without counting a gap. -/
theorem dispatchE_ahead_zero {s : DexStateStore} {e : BaseEvent}
    (hk : e.event_type ≠ "snapshot")
    (hd : isDuplicate e (metaAt s (domainKey e)) = false)
    (hz : (metaAt s (domainKey e)).lastSeq = 0)
    (hseq : (metaAt s (domainKey e)).lastSeq + 1 < e.sequence) :
    dispatchE s e = .ok (bufferDelta s (domainKey e) e) := by
  have hcmp : compareSeq e.sequence ((metaAt s (domainKey e)).lastSeq + 1) > 0 :=
    compareSeq_pos_iff.mpr hseq
  simp only [dispatchE, if_neg hk, hd, Bool.false_eq_true, if_false]
  rw [if_neg (fun hand => hand.2 hz), if_pos ⟨hcmp, hz⟩]

/-- The in-order branch: sequence exactly `lastSeq + 1` applies the event
and flushes. -/
theorem dispatchE_inorder {s s₁ : DexStateStore} {e : BaseEvent}
    (hk : e.event_type ≠ "snapshot")
    (hd : isDuplicate e (metaAt s (domainKey e)) = false)
    (hseq : e.sequence = (metaAt s (domainKey e)).lastSeq + 1)
    (happ : applyRecordE s (domainKey e) e = .ok s₁) :
    dispatchE s e = flushBufferE s₁ (domainKey e) := by
  have hcmp : ¬compareSeq e.sequence ((metaAt s (domainKey e)).lastSeq + 1) > 0 := by
    rw [compareSeq_eq_zero_iff.mpr hseq]
    omega
  simp only [dispatchE, if_neg hk, hd, Bool.false_eq_true, if_false]
  rw [if_neg (fun hand => hcmp hand.1), if_neg (fun hand => hcmp hand.1), happ]

/-- The snapshot branch: unconditional apply, cursor forced to the
snapshot's sequence, then flush. -/
theorem dispatchE_snapshot {s : DexStateStore} {e : BaseEvent} {st : StoreState}
    (hk : e.event_type = "snapshot")
    (happ : applyEventE s.state e = .ok st) :
    dispatchE s e = flushBufferE
      (logApply
        { s with state := st,
                 seqMeta := jsMapSet s.seqMeta (domainKey e)
                   { recordEvent e (metaAt s (domainKey e)) with lastSeq := e.sequence } }
        (domainKey e) true e.sequence)
      (domainKey e) := by
  simp only [dispatchE, if_pos hk, happ]

/-- `bufferDelta` without overflow: append, update the metric, request a
snapshot since the (float-rounded) cursor. -/
theorem bufferDelta_nofull {s : DexStateStore} {k : String} {e : BaseEvent}
    (h : (bufferAt s k).length + 1 ≤ MAX_BUFFER_SIZE) :
    bufferDelta s k e =
      triggerSnapshotRequest (setBufferWithMetric s k (bufferAt s k ++ [e])) e
        (natToFloat64 (metaAt s k).lastSeq) := by
  have hlen : ¬(bufferAt s k ++ [e]).length > MAX_BUFFER_SIZE := by
    simp only [List.length_append, List.length_singleton]
    omega
  simp only [bufferDelta, hlen, if_false, metaAt_setBufferWithMetric]

/-- `bufferDelta` with overflow: the buffer is cleared and a full
resynchronisation (`sinceSeq = 0`) is requested. -/
theorem bufferDelta_full {s : DexStateStore} {k : String} {e : BaseEvent}
    (h : (bufferAt s k).length + 1 > MAX_BUFFER_SIZE) :
    bufferDelta s k e =
      triggerSnapshotRequest
        (setBufferWithMetric (setBufferWithMetric s k (bufferAt s k ++ [e])) k []) e 0 := by
  have hlen : (bufferAt s k ++ [e]).length > MAX_BUFFER_SIZE := by
    simp only [List.length_append, List.length_singleton]
    omega
  simp only [bufferDelta, hlen, if_true]

/-! ## Counterexample fixtures -/

/-- A market-data snapshot whose sequence (`2^53 + 1`) exceeds the exactly
representable binary64 range. -/
def bigSnapshot : BaseEvent := demoSnapshot 9007199254740993

/-- A market-data delta two beyond the expected sequence after
`bigSnapshot`. -/
def bigDelta : BaseEvent := demoDelta 9007199254740996

/-- A snapshot carrying sequence 0 (so the cursor stays at 0 while its
`event_id` enters `seenIds`). -/
def zeroSeqSnapshot : BaseEvent :=
  { event_id := "shared-id"
    event_type := "snapshot"
    sequence := 0
    timestamp := "1000"
    source := "market_data"
    payload := .obj { symbol := some "BTC_USD", bids := some [], asks := some [] } }

/-- A delta ahead of the expected sequence whose `event_id` collides with
`zeroSeqSnapshot`. -/
def dupIdDelta : BaseEvent :=
  { event_id := "shared-id"
    event_type := "delta"
    sequence := 5
    timestamp := "1000"
    source := "market_data"
    payload := .obj { symbol := some "BTC_USD", bids := some [("50005", "0.5")] } }

/-- A market-data snapshot whose payload carries a level with quantity
"0". -/
def zeroQtySnapshot : BaseEvent :=
  { event_id := "zq"
    event_type := "snapshot"
    sequence := 10
    timestamp := "1000"
    source := "market_data"
    payload := .obj { symbol := some "BTC_USD"
                      bids := some [("100", "0")], asks := some [] } }

/-- A market-data snapshot whose payload lacks the `bids`/`asks` arrays. -/
def deficientSnapshot : BaseEvent :=
  { event_id := "bad"
    event_type := "snapshot"
    sequence := 1
    timestamp := "1000"
    source := "market_data"
    payload := .obj { symbol := some "BTC_USD" } }

/-! ## Master inversion of a successful dispatch -/

/-- Every successful `dispatch` went through exactly one of the five paths:
snapshot apply + flush, duplicate drop, gap buffering, pre-snapshot
buffering, or in-order apply + flush. -/
theorem dispatchE_ok_cases {s s' : DexStateStore} {e : BaseEvent}
    (h : dispatchE s e = .ok s') :
    (e.event_type = "snapshot" ∧ ∃ st, applyEventE s.state e = .ok st ∧
      flushBufferE
        (logApply
          { s with state := st,
                   seqMeta := jsMapSet s.seqMeta (domainKey e)
                     { recordEvent e (metaAt s (domainKey e)) with lastSeq := e.sequence } }
          (domainKey e) true e.sequence)
        (domainKey e) = .ok s') ∨
    (e.event_type ≠ "snapshot" ∧ isDuplicate e (metaAt s (domainKey e)) = true ∧
      s' = incIgnored s) ∨
    (e.event_type ≠ "snapshot" ∧ isDuplicate e (metaAt s (domainKey e)) = false ∧
      (metaAt s (domainKey e)).lastSeq + 1 < e.sequence ∧
      (metaAt s (domainKey e)).lastSeq ≠ 0 ∧
      s' = bufferDelta (incGaps s) (domainKey e) e) ∨
    (e.event_type ≠ "snapshot" ∧ isDuplicate e (metaAt s (domainKey e)) = false ∧
      (metaAt s (domainKey e)).lastSeq + 1 < e.sequence ∧
      (metaAt s (domainKey e)).lastSeq = 0 ∧
      s' = bufferDelta s (domainKey e) e) ∨
    (e.event_type ≠ "snapshot" ∧ isDuplicate e (metaAt s (domainKey e)) = false ∧
      e.sequence = (metaAt s (domainKey e)).lastSeq + 1 ∧
      ∃ s₁, applyRecordE s (domainKey e) e = .ok s₁ ∧
        flushBufferE s₁ (domainKey e) = .ok s') := by
  by_cases hk : e.event_type = "snapshot"
  · left
    refine ⟨hk, ?_⟩
    simp only [dispatchE, if_pos hk] at h
    cases happ : applyEventE s.state e with
    | error msg => rw [happ] at h; cases h
    | ok st => rw [happ] at h; exact ⟨st, rfl, h⟩
  · by_cases hd : isDuplicate e (metaAt s (domainKey e)) = true
    · right; left
      rw [dispatchE_dup hk hd] at h
      cases h
      exact ⟨hk, hd, rfl⟩
    · rw [Bool.not_eq_true] at hd
      have hlt := isDuplicate_false_lt hk hd
      by_cases hcmp : (metaAt s (domainKey e)).lastSeq + 1 < e.sequence
      · by_cases hz : (metaAt s (domainKey e)).lastSeq = 0
        · right; right; right; left
          rw [dispatchE_ahead_zero hk hd hz (by omega)] at h
          cases h
          exact ⟨hk, hd, hcmp, hz, rfl⟩
        · right; right; left
          rw [dispatchE_gap hk hd hz hcmp] at h
          cases h
          exact ⟨hk, hd, hcmp, hz, rfl⟩
      · right; right; right; right
        have hseq : e.sequence = (metaAt s (domainKey e)).lastSeq + 1 := by omega
        refine ⟨hk, hd, hseq, ?_⟩
        have hcmp0 : compareSeq e.sequence ((metaAt s (domainKey e)).lastSeq + 1) = 0 :=
          compareSeq_eq_zero_iff.mpr hseq
        have hcmpn : ¬compareSeq e.sequence ((metaAt s (domainKey e)).lastSeq + 1) > 0 := by
          rw [hcmp0]; omega
        simp only [dispatchE, if_neg hk, hd, Bool.false_eq_true, if_false] at h
        rw [if_neg (fun hand => hcmpn hand.1), if_neg (fun hand => hcmpn hand.1)] at h
        cases happ : applyRecordE s (domainKey e) e with
        | error msg => rw [happ] at h; cases h
        | ok s₁ => rw [happ] at h; exact ⟨s₁, rfl, h⟩

/-- Step-preservation of a predicate lifts to whole runs. -/
theorem runE_preserves (P : DexStateStore → Prop)
    (step : ∀ s e s', P s → dispatchE s e = .ok s' → P s') :
    ∀ {es : List BaseEvent} {s s' : DexStateStore}, P s → runE s es = .ok s' → P s' := by
  intro es
  induction es with
  | nil =>
    intro s s' hP h
    unfold runE at h
    cases h
    exact hP
  | cons e rest ih =>
    intro s s' hP h
    unfold runE at h
    cases hd : dispatchE s e with
    | error msg => rw [hd] at h; cases h
    | ok s₁ =>
      rw [hd] at h
      exact ih (step s e s₁ hP hd) h

/-- The buffer of any key after `bufferDelta`. -/
theorem bufferAt_bufferDelta (s : DexStateStore) (k : String) (e : BaseEvent) (k' : String) :
    bufferAt (bufferDelta s k e) k' =
      if k = k' then
        (if (bufferAt s k).length + 1 > MAX_BUFFER_SIZE then [] else bufferAt s k ++ [e])
      else bufferAt s k' := by
  by_cases hfull : (bufferAt s k).length + 1 > MAX_BUFFER_SIZE
  · rw [bufferDelta_full hfull]
    by_cases hk : k = k'
    · subst hk
      simp [bufferAt_setBufferWithMetric_self, hfull]
    · simp only [bufferAt_triggerSnapshotRequest,
        bufferAt_setBufferWithMetric_ne _ _ _ _ hk, if_neg hk]
  · rw [bufferDelta_nofull (by omega)]
    by_cases hk : k = k'
    · subst hk
      simp [bufferAt_setBufferWithMetric_self, hfull]
    · simp only [bufferAt_triggerSnapshotRequest,
        bufferAt_setBufferWithMetric_ne _ _ _ _ hk, if_neg hk]

/-- `bufferDelta` leaves every projection and both event counters
untouched. -/
theorem bufferDelta_state (s : DexStateStore) (k : String) (e : BaseEvent) :
    (bufferDelta s k e).state.orderbooks = s.state.orderbooks ∧
    (bufferDelta s k e).state.tickers = s.state.tickers ∧
    (bufferDelta s k e).state.trades = s.state.trades ∧
    (bufferDelta s k e).state.account = s.state.account ∧
    (bufferDelta s k e).state.metrics.gaps_detected = s.state.metrics.gaps_detected ∧
    (bufferDelta s k e).state.metrics.events_ignored = s.state.metrics.events_ignored := by
  by_cases hfull : (bufferAt s k).length + 1 > MAX_BUFFER_SIZE
  · rw [bufferDelta_full hfull]
    exact ⟨rfl, rfl, rfl, rfl, rfl, rfl⟩
  · rw [bufferDelta_nofull (by omega)]
    exact ⟨rfl, rfl, rfl, rfl, rfl, rfl⟩

/-- `bufferDelta` leaves the sequence metadata untouched. -/
theorem metaAt_bufferDelta (s : DexStateStore) (k : String) (e : BaseEvent) (k' : String) :
    metaAt (bufferDelta s k e) k' = metaAt s k' := by
  by_cases hfull : (bufferAt s k).length + 1 > MAX_BUFFER_SIZE
  · rw [bufferDelta_full hfull]; rfl
  · rw [bufferDelta_nofull (by omega)]; rfl

/-- `bufferDelta` leaves the ghost applied log untouched. -/
theorem appliedLogAt_bufferDelta (s : DexStateStore) (k : String) (e : BaseEvent)
    (k' : String) : appliedLogAt (bufferDelta s k e) k' = appliedLogAt s k' := by
  by_cases hfull : (bufferAt s k).length + 1 > MAX_BUFFER_SIZE
  · rw [bufferDelta_full hfull]; rfl
  · rw [bufferDelta_nofull (by omega)]; rfl

/-- The recovery request emitted by `bufferDelta`: `sinceSeq = 0` on
overflow, otherwise the float-rounded cursor. -/
theorem ghostRequests_bufferDelta (s : DexStateStore) (k : String) (e : BaseEvent) :
    (bufferDelta s k e).ghostRequests = s.ghostRequests ++
      [{ channel := e.source, params := requestParams e,
         sinceSeq := if (bufferAt s k).length + 1 > MAX_BUFFER_SIZE then 0
           else natToFloat64 (metaAt s k).lastSeq }] := by
  by_cases hfull : (bufferAt s k).length + 1 > MAX_BUFFER_SIZE
  · rw [bufferDelta_full hfull, if_pos hfull]
    rfl
  · rw [bufferDelta_nofull (by omega), if_neg hfull]
    rfl

/-! ## Claim C8 — arbitrary-precision sequences in recovery requests -/

/-- The subscription cursor of a stream that has advanced past `2^53`. -/
def c8Subscription : SubscriptionState :=
  { channel := "market_data", params := [("symbol", "BTC_USD")], lastSeq := 9007199254740993 }

/-- C8: sequence comparisons and increments do go through `BigInt`, but the
`snapshot_since` recovery request built by `_requestSnapshotSince` converts
the saved cursor with `Number(sub.lastSeq)`: at `lastSeq = 2^53 + 1` the
frame carries `2^53`, not the prior cursor, contradicting the claim that
every recovery request carries `lastSeq` exactly. -/
theorem C8_snapshot_since_float_rounding :
    (requestSnapshotSince initClient c8Subscription).sentFrames =
      [Frame.snapshotSinceF "market_data" [("symbol", "BTC_USD")] 9007199254740992] ∧
    c8Subscription.lastSeq = 9007199254740993 ∧
    (9007199254740992 : Nat) ≠ 9007199254740993 := by
  refine ⟨by decide, rfl, by decide⟩

/-! ## Claim C2 — duplicate suppression and re-dispatch idempotence -/

/-- C2 counterexample: dispatching the same *snapshot* twice does not touch
`events_ignored` at all (the snapshot branch skips the duplicate check), so
the second dispatch does not increment it by one as claimed. -/
theorem C2_counterexample :
    ¬((runOr [demoSnapshot 100, demoSnapshot 100]).state.metrics.events_ignored =
        (runOr [demoSnapshot 100]).state.metrics.events_ignored + 1) := by
  decide

/-- C2 (amended to delta events): the duplicate branch of `dispatch` leaves
the whole store untouched except for `events_ignored + 1`; and a delta that
was just applied in order is a duplicate on its second dispatch, so
re-dispatching it yields the same projections with `events_ignored` bumped
by exactly one. -/
theorem C2_duplicate_dispatch :
    (∀ (s : DexStateStore) (e : BaseEvent), e.event_type ≠ "snapshot" →
        isDuplicate e (metaAt s (domainKey e)) = true →
        dispatchE s e = .ok (incIgnored s)) ∧
    (∀ (s s₁ : DexStateStore) (e : BaseEvent), e.event_type ≠ "snapshot" →
        isDuplicate e (metaAt s (domainKey e)) = false →
        e.sequence = (metaAt s (domainKey e)).lastSeq + 1 →
        dispatchE s e = .ok s₁ →
        dispatchE s₁ e = .ok (incIgnored s₁)) := by
  constructor
  · intro s e hk hd
    exact dispatchE_dup hk hd
  · intro s s₁ e hk hd hseq h
    rcases dispatchE_ok_cases h with
      ⟨hsnap, _⟩ | ⟨_, hdup, _⟩ | ⟨_, _, hlt, _, _⟩ | ⟨_, _, hlt, _, _⟩ | ⟨_, _, _, s₂, happ, hfl⟩
    · exact absurd hsnap hk
    · rw [hd] at hdup; cases hdup
    · omega
    · omega
    · obtain ⟨st, hst, hs₂⟩ := applyRecordE_ok happ
      have hmeta₂ : (metaAt s₂ (domainKey e)).lastSeq = e.sequence := by
        subst hs₂
        simp only [metaAt_logApply]
        simp only [metaAt, logApply]
        simp only [jsMapGet_set_self, Option.getD_some, recordEvent_lastSeq]
        simp only [metaAt] at hseq
        omega
      have hmono := (flushBufferE_ok hfl).2.1 (domainKey e)
      refine dispatchE_dup hk (isDuplicate_of_le hk ?_)
      omega

/-- Witness for C2 at the S4 fixture: after snapshot 100 and delta 101, a
second dispatch of delta 101 is the pure duplicate bump. -/
theorem C2_duplicate_dispatch_witness :
    dispatchE (runOr [demoSnapshot 100, demoDelta 101]) (demoDelta 101) =
      .ok (incIgnored (runOr [demoSnapshot 100, demoDelta 101])) ∧
    dispatchE (runOr [demoSnapshot 100, demoDelta 101]) (demoDelta 101) =
      .ok (incIgnored (runOr [demoSnapshot 100, demoDelta 101])) :=
  ⟨C2_duplicate_dispatch.1 (runOr [demoSnapshot 100, demoDelta 101]) (demoDelta 101)
      (by decide) (by decide),
   C2_duplicate_dispatch.2 (runOr [demoSnapshot 100]) (runOr [demoSnapshot 100, demoDelta 101])
      (demoDelta 101) (by decide) (by decide) (by decide) (by rfl)⟩

/-! ## Claim C3 — mid-stream gap detection -/

/-- C3 counterexample: with the cursor at `2^53 + 1` (reachable by a
snapshot carrying that sequence), the gap path emits a recovery request
whose `sinceSeq` is the float-rounded `2^53`, not `lastSeq` as claimed. -/
theorem C3_counterexample :
    (runOr [bigSnapshot, bigDelta]).ghostRequests =
      [{ channel := "market_data", params := [("symbol", "BTC_USD")],
         sinceSeq := 9007199254740992 }] ∧
    lastSeqAt (runOr [bigSnapshot]) "market_data::BTC_USD" = 9007199254740993 ∧
    (9007199254740992 : Nat) ≠ 9007199254740993 := by
  refine ⟨by decide, by decide, by decide⟩

/-- C3 (amended): a non-duplicate delta beyond the expected sequence with a
non-zero cursor — while the buffer is below its cap — bumps `gaps_detected`,
buffers the event, emits a recovery request on the event's source channel
with the payload-derived params and `sinceSeq` equal to the binary64
rounding of `lastSeq` (exact below `2^53`), and leaves every projection and
the cursor unchanged; concretely, S3 ends at `lastSeq 102`, one gap, empty
buffer, after a recovery request `(market_data, symbol=BTC_USD, 100)`. -/
theorem C3_gap_dispatch :
    (∀ (s : DexStateStore) (e : BaseEvent), e.event_type ≠ "snapshot" →
      isDuplicate e (metaAt s (domainKey e)) = false →
      (metaAt s (domainKey e)).lastSeq ≠ 0 →
      (metaAt s (domainKey e)).lastSeq + 1 < e.sequence →
      (bufferAt s (domainKey e)).length + 1 ≤ MAX_BUFFER_SIZE →
      ∃ s', dispatchE s e = .ok s' ∧
        s'.state.metrics.gaps_detected = s.state.metrics.gaps_detected + 1 ∧
        s'.state.metrics.events_ignored = s.state.metrics.events_ignored ∧
        bufferAt s' (domainKey e) = bufferAt s (domainKey e) ++ [e] ∧
        s'.ghostRequests = s.ghostRequests ++
          [{ channel := e.source, params := requestParams e,
             sinceSeq := natToFloat64 (metaAt s (domainKey e)).lastSeq }] ∧
        s'.state.orderbooks = s.state.orderbooks ∧
        s'.state.tickers = s.state.tickers ∧
        s'.state.trades = s.state.trades ∧
        s'.state.account = s.state.account ∧
        metaAt s' (domainKey e) = metaAt s (domainKey e)) ∧
    (lastSeqAt (runOr [demoSnapshot 100, demoDelta 102, demoDelta 101])
        "market_data::BTC_USD" = 102 ∧
      (runOr [demoSnapshot 100, demoDelta 102, demoDelta 101]).state.metrics.gaps_detected = 1 ∧
      bufferAt (runOr [demoSnapshot 100, demoDelta 102, demoDelta 101])
        "market_data::BTC_USD" = [] ∧
      (runOr [demoSnapshot 100, demoDelta 102]).ghostRequests =
        [{ channel := "market_data", params := [("symbol", "BTC_USD")], sinceSeq := 100 }] ∧
      bufferAt (runOr [demoSnapshot 100, demoDelta 102]) "market_data::BTC_USD" =
        [demoDelta 102]) := by
  constructor
  · intro s e hk hd hz hseq hlen
    rw [dispatchE_gap hk hd hz hseq]
    have hb : bufferAt (incGaps s) (domainKey e) = bufferAt s (domainKey e) := rfl
    obtain ⟨p1, p2, p3, p4, p5, p6⟩ := bufferDelta_state (incGaps s) (domainKey e) e
    refine ⟨_, rfl, ?_, ?_, ?_, ?_, p1, p2, p3, p4, ?_⟩
    · rw [p5]; rfl
    · rw [p6]; rfl
    · rw [bufferAt_bufferDelta, if_pos rfl, hb, if_neg (by omega)]
    · rw [ghostRequests_bufferDelta, hb, if_neg (by omega)]
      rfl
    · rw [metaAt_bufferDelta]
      rfl
  · refine ⟨by decide, by decide, by decide, by decide, by decide⟩

/-- Witness for C3 at the S3 fixture: snapshot 100 then delta 102 takes the
gap path. -/
theorem C3_gap_dispatch_witness :
    ∃ s', dispatchE (runOr [demoSnapshot 100]) (demoDelta 102) = .ok s' ∧
      s'.state.metrics.gaps_detected =
        (runOr [demoSnapshot 100]).state.metrics.gaps_detected + 1 ∧
      s'.state.metrics.events_ignored =
        (runOr [demoSnapshot 100]).state.metrics.events_ignored ∧
      bufferAt s' (domainKey (demoDelta 102)) =
        bufferAt (runOr [demoSnapshot 100]) (domainKey (demoDelta 102)) ++ [demoDelta 102] ∧
      s'.ghostRequests = (runOr [demoSnapshot 100]).ghostRequests ++
        [{ channel := (demoDelta 102).source, params := requestParams (demoDelta 102),
           sinceSeq := natToFloat64
             (metaAt (runOr [demoSnapshot 100]) (domainKey (demoDelta 102))).lastSeq }] ∧
      s'.state.orderbooks = (runOr [demoSnapshot 100]).state.orderbooks ∧
      s'.state.tickers = (runOr [demoSnapshot 100]).state.tickers ∧
      s'.state.trades = (runOr [demoSnapshot 100]).state.trades ∧
      s'.state.account = (runOr [demoSnapshot 100]).state.account ∧
      metaAt s' (domainKey (demoDelta 102)) =
        metaAt (runOr [demoSnapshot 100]) (domainKey (demoDelta 102)) :=
  C3_gap_dispatch.1 (runOr [demoSnapshot 100]) (demoDelta 102)
    (by decide) (by decide) (by decide) (by decide) (by decide)

/-! ## Claim C4 — pre-snapshot buffering -/

/-- C4 counterexample: a delta ahead of the expected sequence at
`lastSeq = 0` whose `event_id` was already seen (reachable through a
sequence-0 snapshot) is dropped as a duplicate: nothing is buffered and no
`sinceSeq = 0` request is emitted, contrary to the claim. -/
theorem C4_counterexample :
    bufferAt (runOr [zeroSeqSnapshot, dupIdDelta]) "market_data::BTC_USD" = [] ∧
    (runOr [zeroSeqSnapshot, dupIdDelta]).ghostRequests = [] ∧
    (runOr [zeroSeqSnapshot, dupIdDelta]).state.metrics.events_ignored = 1 ∧
    lastSeqAt (runOr [zeroSeqSnapshot]) "market_data::BTC_USD" = 0 ∧
    1 < dupIdDelta.sequence := by
  refine ⟨by decide, by decide, by decide, by decide, by decide⟩

/-- C4 (amended): a delta ahead of the expected sequence at `lastSeq = 0`
that is not an `event_id` duplicate — while the buffer is below its cap —
is buffered without counting a gap and emits a recovery request with
`sinceSeq = 0`; concretely, S2 (delta 101 then snapshot 100) ends with
`lastSeq 101`, no gap, and an empty buffer after the flush. -/
theorem C4_pre_snapshot_buffering :
    (∀ (s : DexStateStore) (e : BaseEvent), e.event_type ≠ "snapshot" →
      isDuplicate e (metaAt s (domainKey e)) = false →
      (metaAt s (domainKey e)).lastSeq = 0 →
      1 < e.sequence →
      (bufferAt s (domainKey e)).length + 1 ≤ MAX_BUFFER_SIZE →
      ∃ s', dispatchE s e = .ok s' ∧
        s'.state.metrics.gaps_detected = s.state.metrics.gaps_detected ∧
        s'.state.metrics.events_ignored = s.state.metrics.events_ignored ∧
        bufferAt s' (domainKey e) = bufferAt s (domainKey e) ++ [e] ∧
        s'.ghostRequests = s.ghostRequests ++
          [{ channel := e.source, params := requestParams e, sinceSeq := 0 }]) ∧
    (lastSeqAt (runOr [demoDelta 101, demoSnapshot 100]) "market_data::BTC_USD" = 101 ∧
      (runOr [demoDelta 101, demoSnapshot 100]).state.metrics.gaps_detected = 0 ∧
      bufferAt (runOr [demoDelta 101, demoSnapshot 100]) "market_data::BTC_USD" = [] ∧
      jsMapGet (runOr [demoDelta 101, demoSnapshot 100]).state.metrics.buffer_size_by_stream
        "market_data::BTC_USD" = some 0 ∧
      bufferAt (runOr [demoDelta 101]) "market_data::BTC_USD" = [demoDelta 101] ∧
      (runOr [demoDelta 101]).ghostRequests =
        [{ channel := "market_data", params := [("symbol", "BTC_USD")], sinceSeq := 0 }]) := by
  constructor
  · intro s e hk hd hz hseq hlen
    rw [dispatchE_ahead_zero hk hd hz (by omega)]
    obtain ⟨_, _, _, _, p5, p6⟩ := bufferDelta_state s (domainKey e) e
    refine ⟨_, rfl, p5, p6, ?_, ?_⟩
    · rw [bufferAt_bufferDelta, if_pos rfl, if_neg (by omega)]
    · rw [ghostRequests_bufferDelta, if_neg (by omega), hz]
      have h0 : natToFloat64 0 = 0 := by decide
      rw [h0]
  · refine ⟨by decide, by decide, by decide, by decide, by decide, by decide⟩

/-- Witness for C4 at the S2 fixture: delta 101 on a fresh store takes the
pre-snapshot buffering path. -/
theorem C4_pre_snapshot_buffering_witness :
    ∃ s', dispatchE initStore (demoDelta 101) = .ok s' ∧
      s'.state.metrics.gaps_detected = initStore.state.metrics.gaps_detected ∧
      s'.state.metrics.events_ignored = initStore.state.metrics.events_ignored ∧
      bufferAt s' (domainKey (demoDelta 101)) =
        bufferAt initStore (domainKey (demoDelta 101)) ++ [demoDelta 101] ∧
      s'.ghostRequests = initStore.ghostRequests ++
        [{ channel := (demoDelta 101).source, params := requestParams (demoDelta 101),
           sinceSeq := 0 }] :=
  C4_pre_snapshot_buffering.1 initStore (demoDelta 101)
    (by decide) (by decide) (by decide) (by decide) (by decide)

/-! ## Claim C7 infrastructure — well-formed payloads never throw -/

/-- A structurally well-formed event clears every throwing property access
in `applyEvent`. -/
theorem applyEventE_wf {e : BaseEvent} (hwf : wfEvent e = true) (st : StoreState) :
    ∃ st', applyEventE st e = .ok st' := by
  unfold applyEventE
  cases hp : e.payload with
  | null =>
    unfold wfEvent at hwf
    rw [hp] at hwf
    cases hwf
  | obj p =>
    by_cases hsrc : e.source = "market_data"
    · rw [if_pos hsrc]
      by_cases htype : e.event_type = "snapshot"
      · rw [if_pos htype]
        have hba : (p.bids.isSome && p.asks.isSome) = true := by
          have h := hwf
          simp only [wfEvent, hp] at h
          rwa [if_pos ⟨hsrc, htype⟩] at h
        obtain ⟨hb, ha⟩ : p.bids.isSome = true ∧ p.asks.isSome = true := by
          simpa using hba
        rcases hbs : p.bids with _ | bs
        · rw [hbs] at hb; cases hb
        rcases has : p.asks with _ | as_
        · rw [has] at ha; cases ha
        simp only [hp, hbs, has]
        exact ⟨_, rfl⟩
      · rw [if_neg htype]
        by_cases hdel : e.event_type = "delta"
        · rw [if_pos hdel]
          simp only [hp]
          by_cases htick : p.last_price.isSome ∨ p.volume_24h.isSome ∨ p.high_24h.isSome ∨
              p.low_24h.isSome ∨ p.mark_price.isSome
          · rw [if_pos htick]
            exact ⟨_, rfl⟩
          · rw [if_neg htick]
            exact ⟨_, rfl⟩
        · rw [if_neg hdel]
          exact ⟨st, rfl⟩
    · rw [if_neg hsrc]
      by_cases htr : e.source = "trades"
      · rw [if_pos htr]
        simp only [hp]
        exact ⟨_, rfl⟩
      · rw [if_neg htr]
        by_cases hacc : e.source = "account"
        · rw [if_pos hacc]
          by_cases htype : e.event_type = "snapshot"
          · rw [if_pos htype]
            simp only [hp]
            exact ⟨_, rfl⟩
          · rw [if_neg htype]
            by_cases hdel : e.event_type = "delta"
            · rw [if_pos hdel]
              cases hcur : st.account with
              | none => exact ⟨st, rfl⟩
              | some a =>
                simp only [hp]
                exact ⟨_, rfl⟩
            · rw [if_neg hdel]
              exact ⟨st, rfl⟩
        · rw [if_neg hacc]
          exact ⟨st, rfl⟩

/-- `applyRecordE` succeeds on well-formed events. -/
theorem applyRecordE_wf {e : BaseEvent} (hwf : wfEvent e = true)
    (s : DexStateStore) (k : String) : ∃ s₁, applyRecordE s k e = .ok s₁ := by
  obtain ⟨st, hst⟩ := applyEventE_wf hwf s.state
  simp only [applyRecordE, hst]
  exact ⟨_, rfl⟩

/-- The flush scan succeeds whenever all scanned events are well formed. -/
theorem flushGoE_wf {k : String} {l : List BaseEvent}
    (hl : ∀ e ∈ l, wfEvent e = true) :
    ∀ s : DexStateStore, ∃ p, flushGoE s k l = .ok p := by
  induction l with
  | nil => intro s; exact ⟨(s, []), rfl⟩
  | cons e rest ih =>
    intro s
    have hrest : ∀ e' ∈ rest, wfEvent e' = true :=
      fun e' he' => hl e' (List.mem_cons_of_mem _ he')
    simp only [flushGoE]
    by_cases hdup : isDuplicate e (metaAt s k) = true
    · rw [if_pos hdup]
      exact ih hrest _
    · rw [if_neg hdup]
      by_cases hcmp : compareSeq e.sequence ((metaAt s k).lastSeq + 1) = 0
      · rw [if_pos hcmp]
        obtain ⟨s₁, hs₁⟩ := applyRecordE_wf (hl e (List.mem_cons_self _ _)) s k
        simp only [hs₁]
        exact ih hrest s₁
      · rw [if_neg hcmp]
        exact ⟨(s, e :: rest), rfl⟩

/-- `flushBuffer` succeeds whenever the key's buffered events are all well
formed. -/
theorem flushBufferE_wf {s : DexStateStore} {k : String}
    (hbuf : ∀ e ∈ bufferAt s k, wfEvent e = true) :
    ∃ s', flushBufferE s k = .ok s' := by
  simp only [flushBufferE]
  by_cases hemp : (bufferAt s k).isEmpty = true
  · rw [if_pos hemp]
    exact ⟨s, rfl⟩
  · rw [if_neg hemp]
    set sorted := (bufferAt s k).insertionSort
        (fun a b => compareSeq a.sequence b.sequence ≤ 0) with hsorted
    set s₀ : DexStateStore := { s with deltaBuffers := jsMapSet s.deltaBuffers k sorted }
      with hs₀
    have hsorted_wf : ∀ e ∈ sorted, wfEvent e = true :=
      fun e he => hbuf e ((List.perm_insertionSort _ _).mem_iff.mp he)
    obtain ⟨p, hgo⟩ := flushGoE_wf hsorted_wf s₀
    rcases p with ⟨s₁, remaining⟩
    rw [hgo]
    show ∃ s', (if sorted.length - remaining.length > 0 then
        Except.ok (setBufferWithMetric s₁ k remaining)
      else (Except.ok s₁ : Except String DexStateStore)) = Except.ok s'
    by_cases hc : sorted.length - remaining.length > 0
    · rw [if_pos hc]
      exact ⟨_, rfl⟩
    · rw [if_neg hc]
      exact ⟨_, rfl⟩

/-- Buffers hold only well-formed events, and dispatch of a well-formed
event succeeds and preserves that. -/
theorem dispatchE_wf {s : DexStateStore} {e : BaseEvent}
    (hwfe : wfEvent e = true)
    (hbuf : ∀ k e', e' ∈ bufferAt s k → wfEvent e' = true) :
    ∃ s', dispatchE s e = .ok s' ∧ ∀ k e', e' ∈ bufferAt s' k → wfEvent e' = true := by
  by_cases hk : e.event_type = "snapshot"
  · obtain ⟨st, hst⟩ := applyEventE_wf hwfe s.state
    rw [dispatchE_snapshot hk hst]
    have hbuf₀ : ∀ k' e', e' ∈ bufferAt
        (logApply
          { s with state := st,
                   seqMeta := jsMapSet s.seqMeta (domainKey e)
                     { recordEvent e (metaAt s (domainKey e)) with lastSeq := e.sequence } }
          (domainKey e) true e.sequence) k' → wfEvent e' = true := hbuf
    obtain ⟨s', hfl⟩ := flushBufferE_wf (hbuf₀ (domainKey e))
    exact ⟨s', hfl, fun k' e' he' => hbuf₀ k' e' ((flushBufferE_ok hfl).2.2.2 k' e' he')⟩
  · by_cases hdup : isDuplicate e (metaAt s (domainKey e)) = true
    · exact ⟨incIgnored s, dispatchE_dup hk hdup, hbuf⟩
    · rw [Bool.not_eq_true] at hdup
      have hlt := isDuplicate_false_lt hk hdup
      have hbd : ∀ s₀ : DexStateStore,
          (∀ k e', e' ∈ bufferAt s₀ k → wfEvent e' = true) →
          ∀ k e', e' ∈ bufferAt (bufferDelta s₀ (domainKey e) e) k → wfEvent e' = true := by
        intro s₀ hb₀ k' e' he'
        rw [bufferAt_bufferDelta] at he'
        by_cases hkk : domainKey e = k'
        · rw [if_pos hkk] at he'
          by_cases hov : (bufferAt s₀ (domainKey e)).length + 1 > MAX_BUFFER_SIZE
          · rw [if_pos hov] at he'
            cases he'
          · rw [if_neg hov] at he'
            rcases List.mem_append.mp he' with h' | h'
            · exact hb₀ _ e' h'
            · rw [List.mem_singleton.mp h']
              exact hwfe
        · rw [if_neg hkk] at he'
          exact hb₀ _ e' he'
      by_cases hgap : (metaAt s (domainKey e)).lastSeq + 1 < e.sequence
      · by_cases hz : (metaAt s (domainKey e)).lastSeq = 0
        · rw [dispatchE_ahead_zero hk hdup hz (by omega)]
          exact ⟨_, rfl, hbd s hbuf⟩
        · rw [dispatchE_gap hk hdup hz hgap]
          exact ⟨_, rfl, hbd (incGaps s) hbuf⟩
      · have hseq : e.sequence = (metaAt s (domainKey e)).lastSeq + 1 := by omega
        obtain ⟨s₁, hs₁⟩ := applyRecordE_wf hwfe s (domainKey e)
        rw [dispatchE_inorder hk hdup hseq hs₁]
        obtain ⟨st, hst, hs₁'⟩ := applyRecordE_ok hs₁
        have hbuf₁ : ∀ k' e', e' ∈ bufferAt s₁ k' → wfEvent e' = true := by
          rw [hs₁']
          exact hbuf
        obtain ⟨s', hfl⟩ := flushBufferE_wf (hbuf₁ (domainKey e))
        exact ⟨s', hfl, fun k' e' he' => hbuf₁ k' e' ((flushBufferE_ok hfl).2.2.2 k' e' he')⟩

/-! ## Claim C1 infrastructure — the applied-event ghost log -/

theorem lastAppliedSeq_snoc (l : List (Bool × Nat)) (x : Bool × Nat) :
    lastAppliedSeq (l ++ [x]) = x.2 := by
  induction l with
  | nil => rfl
  | cons y t ih =>
    cases t with
    | nil => rfl
    | cons z t' => exact ih

theorem lastAppliedSeq_cons₂ (y z : Bool × Nat) (t : List (Bool × Nat)) :
    lastAppliedSeq (y :: z :: t) = lastAppliedSeq (z :: t) := rfl

/-- Appending a snapshot entry keeps the delta-increase predicate. -/
theorem deltaIncrB_snoc_snap (l : List (Bool × Nat)) (n : Nat)
    (h : deltaIncrB l = true) : deltaIncrB (l ++ [(true, n)]) = true := by
  induction l with
  | nil => rfl
  | cons y t ih =>
    cases t with
    | nil => simp [deltaIncrB]
    | cons z t' =>
      simp only [deltaIncrB, Bool.and_eq_true] at h
      have := ih h.2
      simp only [List.cons_append, deltaIncrB, Bool.and_eq_true]
      exact ⟨h.1, by simpa using this⟩

/-- Appending any entry whose sequence exceeds the log's last applied
sequence keeps the delta-increase predicate. -/
theorem deltaIncrB_snoc_gt (l : List (Bool × Nat)) (x : Bool × Nat)
    (h : deltaIncrB l = true) (hlt : lastAppliedSeq l < x.2) :
    deltaIncrB (l ++ [x]) = true := by
  induction l with
  | nil => simp [deltaIncrB]
  | cons y t ih =>
    cases t with
    | nil =>
      simp only [lastAppliedSeq] at hlt
      simp [deltaIncrB, hlt]
    | cons z t' =>
      simp only [deltaIncrB, Bool.and_eq_true] at h
      rw [lastAppliedSeq_cons₂] at hlt
      have := ih h.2 hlt
      simp only [List.cons_append, deltaIncrB, Bool.and_eq_true]
      exact ⟨h.1, by simpa using this⟩

/-- The cursor–log consistency invariant of C1: each stream's `lastSeq` is
the sequence of the last log entry, and every applied delta strictly
exceeds its predecessor. -/
def CursorInv (s : DexStateStore) : Prop :=
  ∀ k, (metaAt s k).lastSeq = lastAppliedSeq (appliedLogAt s k) ∧
    deltaIncrB (appliedLogAt s k) = true

theorem applyRecordE_meta_log {s s₁ : DexStateStore} {k : String} {e : BaseEvent}
    (happ : applyRecordE s k e = .ok s₁) :
    (∀ k', metaAt s₁ k' =
      if k = k' then recordEvent e (metaAt s k) else metaAt s k') ∧
    (∀ k', appliedLogAt s₁ k' =
      if k = k' then
        appliedLogAt s k ++ [(decide (e.event_type = "snapshot"), e.sequence)]
      else appliedLogAt s k') := by
  obtain ⟨st, hst, hs₁⟩ := applyRecordE_ok happ
  constructor
  · intro k'
    rw [hs₁]
    by_cases hk : k = k'
    · subst hk
      rw [if_pos rfl]
      simp only [metaAt_logApply]
      simp only [metaAt]
      simp only [jsMapGet_set_self, Option.getD_some]
    · rw [if_neg hk]
      simp only [metaAt_logApply]
      simp only [metaAt]
      simp only [jsMapGet_set_ne _ _ _ _ hk]
  · intro k'
    rw [hs₁]
    by_cases hk : k = k'
    · subst hk
      rw [if_pos rfl, appliedLogAt_logApply_self]
      rfl
    · rw [if_neg hk, appliedLogAt_logApply_ne _ _ _ _ _ hk]
      rfl

theorem applyRecordE_cursorInv {s s₁ : DexStateStore} {k : String} {e : BaseEvent}
    (happ : applyRecordE s k e = .ok s₁)
    (hseq : e.sequence = (metaAt s k).lastSeq + 1)
    (hinv : CursorInv s) : CursorInv s₁ := by
  obtain ⟨hmeta, hlog⟩ := applyRecordE_meta_log happ
  intro k'
  rw [hmeta k', hlog k']
  by_cases hk : k = k'
  · rw [if_pos hk, if_pos hk]
    obtain ⟨h1, h2⟩ := hinv k
    refine ⟨?_, deltaIncrB_snoc_gt _ _ h2
      (show lastAppliedSeq (appliedLogAt s k) < e.sequence by omega)⟩
    rw [lastAppliedSeq_snoc, recordEvent_lastSeq]
    exact (show max e.sequence (metaAt s k).lastSeq = e.sequence from
      Nat.max_eq_left (by omega))
  · rw [if_neg hk, if_neg hk]
    exact hinv k'

theorem flushGoE_cursorInv {k : String} {l : List BaseEvent} :
    ∀ {s s' : DexStateStore} {rem : List BaseEvent},
    flushGoE s k l = .ok (s', rem) → CursorInv s → CursorInv s' := by
  induction l with
  | nil =>
    intro s s' rem h hinv
    unfold flushGoE at h
    cases h
    exact hinv
  | cons e rest ih =>
    intro s s' rem h hinv
    simp only [flushGoE] at h
    by_cases hdup : isDuplicate e (metaAt s k) = true
    · rw [if_pos hdup] at h
      exact ih h hinv
    · rw [if_neg hdup] at h
      by_cases hcmp : compareSeq e.sequence ((metaAt s k).lastSeq + 1) = 0
      · rw [if_pos hcmp] at h
        cases happ : applyRecordE s k e with
        | error msg => rw [happ] at h; cases h
        | ok s₁ =>
          rw [happ] at h
          exact ih h (applyRecordE_cursorInv happ (compareSeq_eq_zero_iff.mp hcmp) hinv)
      · rw [if_neg hcmp] at h
        cases h
        exact hinv

theorem flushBufferE_cursorInv {s s' : DexStateStore} {k : String}
    (h : flushBufferE s k = .ok s') (hinv : CursorInv s) : CursorInv s' := by
  simp only [flushBufferE] at h
  by_cases hemp : (bufferAt s k).isEmpty = true
  · rw [if_pos hemp] at h
    cases h
    exact hinv
  · rw [if_neg hemp] at h
    set sorted := (bufferAt s k).insertionSort
        (fun a b => compareSeq a.sequence b.sequence ≤ 0) with hsorted
    set s₀ : DexStateStore := { s with deltaBuffers := jsMapSet s.deltaBuffers k sorted }
      with hs₀
    cases hgo : flushGoE s₀ k sorted with
    | error msg => rw [hgo] at h; cases h
    | ok p =>
      rcases p with ⟨s₁, remaining⟩
      rw [hgo] at h
      replace h : (if sorted.length - remaining.length > 0 then
            Except.ok (setBufferWithMetric s₁ k remaining)
          else (Except.ok s₁ : Except String DexStateStore)) = Except.ok s' := h
      have hinv₁ : CursorInv s₁ := flushGoE_cursorInv hgo hinv
      by_cases hc : sorted.length - remaining.length > 0
      · rw [if_pos hc] at h
        cases h
        exact hinv₁
      · rw [if_neg hc] at h
        cases h
        exact hinv₁

theorem dispatchE_cursorInv {s s' : DexStateStore} {e : BaseEvent}
    (h : dispatchE s e = .ok s') (hinv : CursorInv s) : CursorInv s' := by
  rcases dispatchE_ok_cases h with
    ⟨hk, st, happ, hfl⟩ | ⟨_, _, rfl⟩ | ⟨_, _, _, _, rfl⟩ | ⟨_, _, _, _, rfl⟩ |
    ⟨hk, hd, hseq, s₁, happ, hfl⟩
  · refine flushBufferE_cursorInv hfl ?_
    intro k'
    by_cases hkk : domainKey e = k'
    · subst hkk
      constructor
      · rw [appliedLogAt_logApply_self, lastAppliedSeq_snoc]
        simp only [metaAt_logApply]
        simp only [metaAt]
        simp only [jsMapGet_set_self, Option.getD_some]
      · rw [appliedLogAt_logApply_self]
        refine deltaIncrB_snoc_snap _ _ ?_
        exact (show deltaIncrB (appliedLogAt s (domainKey e)) = true from (hinv _).2)
    · rw [appliedLogAt_logApply_ne _ _ _ _ _ hkk]
      constructor
      · simp only [metaAt_logApply]
        simp only [metaAt]
        simp only [jsMapGet_set_ne _ _ _ _ hkk]
        exact (show (metaAt s k').lastSeq = lastAppliedSeq (appliedLogAt s k') from (hinv k').1)
      · exact (show deltaIncrB (appliedLogAt s k') = true from (hinv k').2)
  · exact hinv
  · intro k'
    rw [metaAt_bufferDelta, appliedLogAt_bufferDelta]
    exact hinv k'
  · intro k'
    rw [metaAt_bufferDelta, appliedLogAt_bufferDelta]
    exact hinv k'
  · exact flushBufferE_cursorInv hfl (applyRecordE_cursorInv happ hseq hinv)

/-! ## Claim C1 — applied sequences on a stream -/

/-- C1 counterexample: snapshots are applied regardless of sequence, so a
snapshot at 100 followed by a snapshot at 50 produces an applied-event log
whose sequences are not strictly increasing. -/
theorem C1_counterexample :
    appliedLogAt (runOr [demoSnapshot 100, demoSnapshot 50]) "market_data::BTC_USD" =
      [(true, 100), (true, 50)] ∧
    strictIncrB (appliedLogAt (runOr [demoSnapshot 100, demoSnapshot 50])
      "market_data::BTC_USD") = false := by
  refine ⟨by decide, by decide⟩

/-- C1 (amended): on every store reachable by dispatching from the initial
store, each stream's applied-event log has every applied *delta* carrying a
sequence strictly greater than the previously applied event's, and `lastSeq`
always equals the sequence of the last applied event — an applied snapshot
resets the cursor to its own sequence, which may go backwards. -/
theorem C1_applied_deltas_increase :
    ∀ (es : List BaseEvent) (s : DexStateStore), runE initStore es = .ok s →
      ∀ k, deltaIncrB (appliedLogAt s k) = true ∧
        (metaAt s k).lastSeq = lastAppliedSeq (appliedLogAt s k) := by
  intro es s hrun k
  have hinit : CursorInv initStore := by
    intro k'
    exact ⟨rfl, rfl⟩
  have hfinal : CursorInv s :=
    runE_preserves CursorInv (fun s₀ e s₁ hP h => dispatchE_cursorInv h hP) hinit hrun
  exact ⟨(hfinal k).2, (hfinal k).1⟩

/-- Witness for C1 on the S1 run. -/
theorem C1_applied_deltas_increase_witness :
    deltaIncrB (appliedLogAt (runOr [demoSnapshot 100, demoDelta 101])
        "market_data::BTC_USD") = true ∧
    (metaAt (runOr [demoSnapshot 100, demoDelta 101]) "market_data::BTC_USD").lastSeq =
      lastAppliedSeq (appliedLogAt (runOr [demoSnapshot 100, demoDelta 101])
        "market_data::BTC_USD") :=
  C1_applied_deltas_increase [demoSnapshot 100, demoDelta 101]
    (runOr [demoSnapshot 100, demoDelta 101]) (by rfl) "market_data::BTC_USD"

/-! ## Claim C7 — dispatch totality -/

/-- C7 counterexample: dispatching a market-data snapshot whose payload
lacks the `bids`/`asks` arrays throws a `TypeError` (spreading a missing
array inside `applyOrderbookSnapshot`) instead of being dropped silently. -/
theorem C7_counterexample :
    dispatchE initStore deficientSnapshot =
      .error "TypeError: payload bids/asks is not iterable" := by
  rfl

/-- C7 (amended): dispatch never throws on structurally well-formed events —
object payloads, with both level arrays present on market-data snapshots;
duplicates, gaps and buffer overflows are absorbed into metrics or recovery
requests.  (Structurally deficient market-data snapshots and null payloads
do throw, as the counterexample shows.) -/
theorem C7_dispatch_total :
    ∀ (es : List BaseEvent), (∀ e ∈ es, wfEvent e = true) →
      ∃ s, runE initStore es = .ok s := by
  have main : ∀ (es : List BaseEvent) (s : DexStateStore),
      (∀ e ∈ es, wfEvent e = true) →
      (∀ k e', e' ∈ bufferAt s k → wfEvent e' = true) →
      ∃ s', runE s es = .ok s' := by
    intro es
    induction es with
    | nil => intro s _ _; exact ⟨s, rfl⟩
    | cons e rest ih =>
      intro s hes hbuf
      obtain ⟨s₁, hd, hbuf₁⟩ := dispatchE_wf (hes e (List.mem_cons_self _ _)) hbuf
      obtain ⟨s', hrun⟩ := ih s₁ (fun e' he' => hes e' (List.mem_cons_of_mem _ he')) hbuf₁
      refine ⟨s', ?_⟩
      unfold runE
      rw [hd]
      exact hrun
  intro es hes
  refine main es initStore hes ?_
  intro k e' he'
  simp [bufferAt, initStore, jsMapGet] at he'

/-- Witness for C7: the S1 event list is well formed, and its run
succeeds. -/
theorem C7_dispatch_total_witness :
    ∃ s, runE initStore [demoSnapshot 100, demoDelta 101] = .ok s :=
  C7_dispatch_total [demoSnapshot 100, demoDelta 101] (by decide)

/-! ## Claim C5 — buffer overflow and the global buffer bound -/

/-- A store whose `market_data::BTC_USD` buffer is at the 10,000-entry
cap. -/
def fullBufferStore : DexStateStore :=
  { initStore with
    deltaBuffers := [("market_data::BTC_USD", List.replicate MAX_BUFFER_SIZE (demoDelta 102))] }

/-- C5: pushing a delta onto a buffer already at the cap clears the buffer
entirely and emits a `sinceSeq = 0` recovery request; and every store
reachable from the initial store by dispatching keeps all per-stream buffers
at 10,000 entries or fewer. -/
theorem C5_buffer_cap :
    (∀ (s : DexStateStore) (k : String) (e : BaseEvent),
      (bufferAt s k).length ≥ MAX_BUFFER_SIZE →
      bufferAt (bufferDelta s k e) k = [] ∧
      (bufferDelta s k e).ghostRequests = s.ghostRequests ++
        [{ channel := e.source, params := requestParams e, sinceSeq := 0 }]) ∧
    (∀ (es : List BaseEvent) (s : DexStateStore), runE initStore es = .ok s →
      ∀ k, (bufferAt s k).length ≤ MAX_BUFFER_SIZE) := by
  constructor
  · intro s k e hfull
    constructor
    · rw [bufferAt_bufferDelta, if_pos rfl, if_pos (by omega)]
    · rw [ghostRequests_bufferDelta, if_pos (by omega)]
  · intro es s hrun k
    have hinit : ∀ k, (bufferAt initStore k).length ≤ MAX_BUFFER_SIZE := by
      intro k
      simp [bufferAt, initStore, jsMapGet, MAX_BUFFER_SIZE]
    refine runE_preserves
      (fun s => ∀ k, (bufferAt s k).length ≤ MAX_BUFFER_SIZE) ?_ hinit hrun k
    intro s₀ e s₁ hP h
    rcases dispatchE_ok_cases h with
      ⟨_, st, happ, hfl⟩ | ⟨_, _, rfl⟩ |
      ⟨_, _, _, _, rfl⟩ | ⟨_, _, _, _, rfl⟩ | ⟨_, _, _, s₂, happ, hfl⟩
    · intro k'
      exact le_trans ((flushBufferE_ok hfl).2.2.1 k') (hP k')
    · exact hP
    · intro k'
      rw [bufferAt_bufferDelta]
      by_cases hk : domainKey e = k'
      · rw [if_pos hk]
        by_cases hov : (bufferAt (incGaps s₀) (domainKey e)).length + 1 > MAX_BUFFER_SIZE
        · rw [if_pos hov]
          simp
        · rw [if_neg hov]
          simp only [List.length_append, List.length_singleton]
          omega
      · rw [if_neg hk]
        exact hP k'
    · intro k'
      rw [bufferAt_bufferDelta]
      by_cases hk : domainKey e = k'
      · rw [if_pos hk]
        by_cases hov : (bufferAt s₀ (domainKey e)).length + 1 > MAX_BUFFER_SIZE
        · rw [if_pos hov]
          simp
        · rw [if_neg hov]
          simp only [List.length_append, List.length_singleton]
          omega
      · rw [if_neg hk]
        exact hP k'
    · intro k'
      obtain ⟨st, hst, hs₂⟩ := applyRecordE_ok happ
      have hb : bufferAt s₂ k' = bufferAt s₀ k' := by rw [hs₂]; rfl
      exact le_trans ((flushBufferE_ok hfl).2.2.1 k') (hb ▸ hP k')

/-! ## Claim C6 infrastructure — orderbook side invariants -/

theorem pricesNodup_cons (p q : String) (t : List PriceLevel) :
    pricesNodup ((p, q) :: t) = true ↔ (∀ x ∈ t, x.1 ≠ p) ∧ pricesNodup t = true := by
  simp [pricesNodup, List.any_eq_true]

theorem pricesNodup_iff_pairwise {l : List PriceLevel} :
    pricesNodup l = true ↔ l.Pairwise (fun a b => a.1 ≠ b.1) := by
  induction l with
  | nil => simp [pricesNodup]
  | cons x t ih =>
    rcases x with ⟨p, q⟩
    rw [pricesNodup_cons, List.pairwise_cons, ih]
    constructor
    · rintro ⟨h1, h2⟩
      exact ⟨fun b hb => Ne.symm (h1 b hb), h2⟩
    · rintro ⟨h1, h2⟩
      exact ⟨fun b hb => Ne.symm (h1 b hb), h2⟩

theorem pricesNodup_of_perm {l₁ l₂ : List PriceLevel} (hp : l₁.Perm l₂)
    (h : pricesNodup l₁ = true) : pricesNodup l₂ = true := by
  rw [pricesNodup_iff_pairwise] at h ⊢
  exact ((hp.pairwise_iff (fun {x y} hxy => Ne.symm hxy)).mp h)

theorem noZeroQty_of_perm {l₁ l₂ : List PriceLevel} (hp : l₁.Perm l₂)
    (h : noZeroQty l₁ = true) : noZeroQty l₂ = true := by
  simp only [noZeroQty, List.all_eq_true] at h ⊢
  intro x hx
  exact h x (hp.mem_iff.mpr hx)

theorem pricesNodup_of_nodup_keys {l : List PriceLevel}
    (h : (l.map Prod.fst).Nodup) : pricesNodup l = true := by
  rw [pricesNodup_iff_pairwise]
  exact List.pairwise_map.mp h

theorem foldl_set_good (l : List PriceLevel) :
    ∀ (m : List PriceLevel), (∀ kv ∈ l, kv.2 ≠ "0") →
    (m.map Prod.fst).Nodup → (∀ kv ∈ m, kv.2 ≠ "0") →
    (((l.foldl (fun m pq => jsMapSet m pq.1 pq.2) m).map Prod.fst).Nodup ∧
      ∀ kv ∈ l.foldl (fun m pq => jsMapSet m pq.1 pq.2) m, kv.2 ≠ "0") := by
  induction l with
  | nil => intro m _ h1 h2; exact ⟨h1, h2⟩
  | cons x t ih =>
    intro m hl h1 h2
    simp only [List.foldl_cons]
    refine ih _ (fun kv hkv => hl kv (List.mem_cons_of_mem _ hkv))
      (nodup_keys_jsMapSet _ _ h1) ?_
    intro kv hkv
    rcases mem_jsMapSet hkv with h' | h'
    · exact h2 kv h'
    · rw [h']
      exact hl x (List.mem_cons_self _ _)

theorem foldl_upd_good (l : List PriceLevel) :
    ∀ (m : List PriceLevel),
    (m.map Prod.fst).Nodup → (∀ kv ∈ m, kv.2 ≠ "0") →
    (((l.foldl
        (fun m pq => if pq.2 = "0" then jsMapDelete m pq.1 else jsMapSet m pq.1 pq.2)
        m).map Prod.fst).Nodup ∧
      ∀ kv ∈ l.foldl
        (fun m pq => if pq.2 = "0" then jsMapDelete m pq.1 else jsMapSet m pq.1 pq.2) m,
        kv.2 ≠ "0") := by
  induction l with
  | nil => intro m h1 h2; exact ⟨h1, h2⟩
  | cons x t ih =>
    intro m h1 h2
    simp only [List.foldl_cons]
    by_cases hx : x.2 = "0"
    · rw [if_pos hx]
      exact ih _ (nodup_keys_jsMapDelete _ h1) (fun kv hkv => h2 kv (mem_jsMapDelete hkv))
    · rw [if_neg hx]
      refine ih _ (nodup_keys_jsMapSet _ _ h1) ?_
      intro kv hkv
      rcases mem_jsMapSet hkv with h' | h'
      · exact h2 kv h'
      · rw [h']
        exact hx

/-- `mergeLevels` always produces a price-unique side, with no zero
quantities as long as the existing side had none. -/
theorem mergeLevels_good (existing updates : List PriceLevel) (d : Bool)
    (hex : noZeroQty existing = true) :
    pricesNodup (mergeLevels existing updates d) = true ∧
    noZeroQty (mergeLevels existing updates d) = true := by
  have hexv : ∀ kv ∈ existing, kv.2 ≠ "0" := by
    simp only [noZeroQty, List.all_eq_true] at hex
    intro kv hkv
    simpa using hex kv hkv
  have hbase := foldl_set_good existing [] hexv (by simp) (by simp)
  have hupd := foldl_upd_good updates _ hbase.1 hbase.2
  have hperm := List.perm_insertionSort
    (fun a b : PriceLevel =>
      (if d then -(comparePriceAsc a.1 b.1) else comparePriceAsc a.1 b.1) ≤ 0)
    (updates.foldl
      (fun m pq => if pq.2 = "0" then jsMapDelete m pq.1 else jsMapSet m pq.1 pq.2)
      (existing.foldl (fun m pq => jsMapSet m pq.1 pq.2) []))
  have hmap2 : noZeroQty (updates.foldl
      (fun m pq => if pq.2 = "0" then jsMapDelete m pq.1 else jsMapSet m pq.1 pq.2)
      (existing.foldl (fun m pq => jsMapSet m pq.1 pq.2) [])) = true := by
    simp only [noZeroQty, List.all_eq_true]
    intro x hx
    simpa using hupd.2 x hx
  exact ⟨pricesNodup_of_perm hperm.symm (pricesNodup_of_nodup_keys hupd.1),
    noZeroQty_of_perm hperm.symm hmap2⟩

/-- An orderbook snapshot with a contract-respecting payload produces a good
book. -/
theorem applyOrderbookSnapshot_good {sym : Option String} {bids asks : List PriceLevel}
    {n : Nat} (hb1 : pricesNodup bids = true) (hb2 : noZeroQty bids = true)
    (ha1 : pricesNodup asks = true) (ha2 : noZeroQty asks = true) :
    bookOk (applyOrderbookSnapshot sym bids asks n) = true := by
  have hpb := List.perm_insertionSort
    (fun a b : PriceLevel => comparePriceAsc b.1 a.1 ≤ 0) bids
  have hpa := List.perm_insertionSort
    (fun a b : PriceLevel => comparePriceAsc a.1 b.1 ≤ 0) asks
  simp only [bookOk, applyOrderbookSnapshot, Bool.and_eq_true]
  exact ⟨⟨⟨pricesNodup_of_perm hpb.symm hb1, noZeroQty_of_perm hpb.symm hb2⟩,
    pricesNodup_of_perm hpa.symm ha1⟩, noZeroQty_of_perm hpa.symm ha2⟩

/-- An orderbook delta keeps a good book good. -/
theorem applyOrderbookDelta_good {cur : OrderbookState} {p : PayloadObj} {n : Nat}
    (hcur : bookOk cur = true) : bookOk (applyOrderbookDelta cur p n) = true := by
  simp only [bookOk, Bool.and_eq_true] at hcur
  obtain ⟨⟨⟨hb1, hb2⟩, ha1⟩, ha2⟩ := hcur
  have hbids : pricesNodup (match p.bids with
        | some upd => mergeLevels cur.bids upd true
        | none => cur.bids) = true ∧
      noZeroQty (match p.bids with
        | some upd => mergeLevels cur.bids upd true
        | none => cur.bids) = true := by
    cases p.bids with
    | none => exact ⟨hb1, hb2⟩
    | some upd => exact mergeLevels_good cur.bids upd true hb2
  have hasks : pricesNodup (match p.asks with
        | some upd => mergeLevels cur.asks upd false
        | none => cur.asks) = true ∧
      noZeroQty (match p.asks with
        | some upd => mergeLevels cur.asks upd false
        | none => cur.asks) = true := by
    cases p.asks with
    | none => exact ⟨ha1, ha2⟩
    | some upd => exact mergeLevels_good cur.asks upd false ha2
  simp only [bookOk, applyOrderbookDelta, Bool.and_eq_true]
  exact ⟨⟨⟨hbids.1, hbids.2⟩, hasks.1⟩, hasks.2⟩

/-- Inserting a good book into a store with good books keeps them all
good. -/
theorem booksOk_set {st : StoreState} {key : Option String} {b : OrderbookState}
    (hgood : booksOk st = true) (hb : bookOk b = true) :
    booksOk { st with orderbooks := jsMapSet st.orderbooks key b } = true := by
  simp only [booksOk, List.all_eq_true] at hgood ⊢
  intro kv hkv
  rcases mem_jsMapSet hkv with h' | h'
  · exact hgood kv h'
  · rw [h']
    exact hb

/-- `booksOk` only reads the orderbooks map. -/
theorem booksOk_congr {st st' : StoreState} (h : st'.orderbooks = st.orderbooks)
    (hgood : booksOk st = true) : booksOk st' = true := by
  unfold booksOk at hgood ⊢
  rw [h]
  exact hgood

/-- Every book stored in a good store is good. -/
theorem bookOk_of_get {st : StoreState} {key : Option String} {b : OrderbookState}
    (hgood : booksOk st = true) (hget : jsMapGet st.orderbooks key = some b) :
    bookOk b = true := by
  simp only [booksOk, List.all_eq_true] at hgood
  exact hgood (key, b) (jsMapGet_mem hget)

/-- Non-snapshot events vacuously satisfy the snapshot-payload contract. -/
theorem snapPayloadOk_of_not_snap {e : BaseEvent} (h : e.event_type ≠ "snapshot") :
    snapPayloadOk e = true := by
  unfold snapPayloadOk
  rw [if_neg (fun hand => h hand.2)]

/-- `applyEvent` preserves good books, given the snapshot-payload
contract. -/
theorem applyEventE_booksOk {st st' : StoreState} {e : BaseEvent}
    (happ : applyEventE st e = .ok st') (hgood : booksOk st = true)
    (hsnap : snapPayloadOk e = true) : booksOk st' = true := by
  unfold applyEventE at happ
  by_cases hsrc : e.source = "market_data"
  · rw [if_pos hsrc] at happ
    by_cases htype : e.event_type = "snapshot"
    · rw [if_pos htype] at happ
      cases hp : e.payload with
      | null => rw [hp] at happ; cases happ
      | obj p =>
        simp only [hp] at happ
        rcases hbs : p.bids with _ | bs <;> rcases has : p.asks with _ | as_ <;>
          simp only [hbs, has] at happ
        · cases happ
        · cases happ
        · cases happ
        · cases happ
          have hba : ((pricesNodup bs && noZeroQty bs) &&
              (pricesNodup as_ && noZeroQty as_)) = true := by
            have h := hsnap
            unfold snapPayloadOk at h
            rw [if_pos ⟨hsrc, htype⟩] at h
            simp only [hp, hbs, has] at h
            exact h
          simp only [Bool.and_eq_true] at hba
          exact booksOk_set hgood
            (applyOrderbookSnapshot_good hba.1.1 hba.1.2 hba.2.1 hba.2.2)
    · rw [if_neg htype] at happ
      by_cases hdel : e.event_type = "delta"
      · rw [if_pos hdel] at happ
        cases hp : e.payload with
        | null => rw [hp] at happ; cases happ
        | obj p =>
          simp only [hp] at happ
          have hst₁ : booksOk (if p.bids.isSome ∨ p.asks.isSome then
              match jsMapGet st.orderbooks p.symbol with
              | some current =>
                { st with orderbooks :=
                    (jsMapSet st.orderbooks p.symbol
                      (applyOrderbookDelta current p e.sequence)) }
              | none => st
            else st) = true := by
            by_cases hside : p.bids.isSome ∨ p.asks.isSome
            · rw [if_pos hside]
              cases hget : jsMapGet st.orderbooks p.symbol with
              | none => exact hgood
              | some current =>
                exact booksOk_set hgood
                  (applyOrderbookDelta_good (bookOk_of_get hgood hget))
            · rw [if_neg hside]
              exact hgood
          by_cases htick : p.last_price.isSome ∨ p.volume_24h.isSome ∨
              p.high_24h.isSome ∨ p.low_24h.isSome ∨ p.mark_price.isSome
          · rw [if_pos htick] at happ
            cases happ
            exact booksOk_congr rfl hst₁
          · rw [if_neg htick] at happ
            cases happ
            exact hst₁
      · rw [if_neg hdel] at happ
        cases happ
        exact hgood
  · rw [if_neg hsrc] at happ
    by_cases htr : e.source = "trades"
    · rw [if_pos htr] at happ
      cases hp : e.payload with
      | null => rw [hp] at happ; cases happ
      | obj p =>
        simp only [hp] at happ
        cases happ
        exact booksOk_congr rfl hgood
    · rw [if_neg htr] at happ
      by_cases hacc : e.source = "account"
      · rw [if_pos hacc] at happ
        by_cases htype : e.event_type = "snapshot"
        · rw [if_pos htype] at happ
          cases hp : e.payload with
          | null => rw [hp] at happ; cases happ
          | obj p =>
            simp only [hp] at happ
            cases happ
            exact booksOk_congr rfl hgood
        · rw [if_neg htype] at happ
          by_cases hdel : e.event_type = "delta"
          · rw [if_pos hdel] at happ
            cases hcur : st.account with
            | none => rw [hcur] at happ; cases happ; exact hgood
            | some a =>
              rw [hcur] at happ
              cases hp : e.payload with
              | null => rw [hp] at happ; cases happ
              | obj p =>
                simp only [hp] at happ
                cases happ
                exact booksOk_congr rfl hgood
          · rw [if_neg hdel] at happ
            cases happ
            exact hgood
      · rw [if_neg hacc] at happ
        cases happ
        exact hgood

/-- The flush scan preserves good books (buffered events are never
snapshot-typed). -/
theorem flushGoE_booksOk {k : String} {l : List BaseEvent}
    (hl : ∀ e ∈ l, e.event_type ≠ "snapshot") :
    ∀ {s s' : DexStateStore} {rem : List BaseEvent},
    flushGoE s k l = .ok (s', rem) →
    booksOk s.state = true → booksOk s'.state = true := by
  induction l with
  | nil =>
    intro s s' rem h hgood
    unfold flushGoE at h
    cases h
    exact hgood
  | cons e rest ih =>
    intro s s' rem h hgood
    have hrest : ∀ e' ∈ rest, e'.event_type ≠ "snapshot" :=
      fun e' he' => hl e' (List.mem_cons_of_mem _ he')
    simp only [flushGoE] at h
    by_cases hdup : isDuplicate e (metaAt s k) = true
    · rw [if_pos hdup] at h
      exact ih hrest h hgood
    · rw [if_neg hdup] at h
      by_cases hcmp : compareSeq e.sequence ((metaAt s k).lastSeq + 1) = 0
      · rw [if_pos hcmp] at h
        cases happ : applyRecordE s k e with
        | error msg => rw [happ] at h; cases h
        | ok s₁ =>
          rw [happ] at h
          obtain ⟨st, hst, hs₁⟩ := applyRecordE_ok happ
          have hgood₁ : booksOk s₁.state = true := by
            rw [hs₁]
            exact applyEventE_booksOk hst hgood
              (snapPayloadOk_of_not_snap (hl e (List.mem_cons_self _ _)))
          exact ih hrest h hgood₁
      · rw [if_neg hcmp] at h
        cases h
        exact hgood

/-- `flushBuffer` preserves good books when the buffer holds no
snapshot-typed events. -/
theorem flushBufferE_booksOk {s s' : DexStateStore} {k : String}
    (h : flushBufferE s k = .ok s')
    (hbuf : ∀ e ∈ bufferAt s k, e.event_type ≠ "snapshot")
    (hgood : booksOk s.state = true) : booksOk s'.state = true := by
  simp only [flushBufferE] at h
  by_cases hemp : (bufferAt s k).isEmpty = true
  · rw [if_pos hemp] at h
    cases h
    exact hgood
  · rw [if_neg hemp] at h
    set sorted := (bufferAt s k).insertionSort
        (fun a b => compareSeq a.sequence b.sequence ≤ 0) with hsorted
    set s₀ : DexStateStore := { s with deltaBuffers := jsMapSet s.deltaBuffers k sorted }
      with hs₀
    have hsorted_ns : ∀ e ∈ sorted, e.event_type ≠ "snapshot" :=
      fun e he => hbuf e ((List.perm_insertionSort _ _).mem_iff.mp he)
    cases hgo : flushGoE s₀ k sorted with
    | error msg => rw [hgo] at h; cases h
    | ok p =>
      rcases p with ⟨s₁, remaining⟩
      rw [hgo] at h
      replace h : (if sorted.length - remaining.length > 0 then
            Except.ok (setBufferWithMetric s₁ k remaining)
          else (Except.ok s₁ : Except String DexStateStore)) = Except.ok s' := h
      have hgood₁ : booksOk s₁.state = true := flushGoE_booksOk hsorted_ns hgo hgood
      by_cases hc : sorted.length - remaining.length > 0
      · rw [if_pos hc] at h
        cases h
        exact booksOk_congr rfl hgood₁
      · rw [if_neg hc] at h
        cases h
        exact hgood₁

/-- One dispatch step preserves good books and the no-snapshot-in-buffer
invariant, given the snapshot-payload contract on the dispatched event. -/
theorem dispatchE_booksOk {s s' : DexStateStore} {e : BaseEvent}
    (h : dispatchE s e = .ok s')
    (hsnap : snapPayloadOk e = true)
    (hgood : booksOk s.state = true)
    (hbuf : ∀ k e', e' ∈ bufferAt s k → e'.event_type ≠ "snapshot") :
    booksOk s'.state = true ∧
      ∀ k e', e' ∈ bufferAt s' k → e'.event_type ≠ "snapshot" := by
  rcases dispatchE_ok_cases h with
    ⟨hk, st, happ, hfl⟩ | ⟨_, _, rfl⟩ | ⟨hk, _, _, _, rfl⟩ | ⟨hk, _, _, _, rfl⟩ |
    ⟨hk, hd, hseq, s₁, happ, hfl⟩
  · have hgood₀ : booksOk st = true := applyEventE_booksOk happ hgood hsnap
    obtain ⟨_, _, _, hmem⟩ := flushBufferE_ok hfl
    refine ⟨flushBufferE_booksOk hfl (fun e' he' => hbuf _ e' he') hgood₀, ?_⟩
    intro k' e' he'
    exact hbuf k' e' (hmem k' e' he')
  · exact ⟨hgood, hbuf⟩
  · constructor
    · exact booksOk_congr (bufferDelta_state _ _ _).1 hgood
    · intro k' e' he'
      rw [bufferAt_bufferDelta] at he'
      by_cases hkk : domainKey e = k'
      · rw [if_pos hkk] at he'
        by_cases hov : (bufferAt (incGaps s) (domainKey e)).length + 1 > MAX_BUFFER_SIZE
        · rw [if_pos hov] at he'
          cases he'
        · rw [if_neg hov] at he'
          rcases List.mem_append.mp he' with h' | h'
          · exact hbuf _ e' h'
          · rw [List.mem_singleton.mp h']
            exact hk
      · rw [if_neg hkk] at he'
        exact hbuf _ e' he'
  · constructor
    · exact booksOk_congr (bufferDelta_state _ _ _).1 hgood
    · intro k' e' he'
      rw [bufferAt_bufferDelta] at he'
      by_cases hkk : domainKey e = k'
      · rw [if_pos hkk] at he'
        by_cases hov : (bufferAt s (domainKey e)).length + 1 > MAX_BUFFER_SIZE
        · rw [if_pos hov] at he'
          cases he'
        · rw [if_neg hov] at he'
          rcases List.mem_append.mp he' with h' | h'
          · exact hbuf _ e' h'
          · rw [List.mem_singleton.mp h']
            exact hk
      · rw [if_neg hkk] at he'
        exact hbuf _ e' he'
  · obtain ⟨st, hst, hs₁⟩ := applyRecordE_ok happ
    have hgood₁ : booksOk s₁.state = true := by
      rw [hs₁]
      exact applyEventE_booksOk hst hgood hsnap
    have hbuf₁ : ∀ k' e', e' ∈ bufferAt s₁ k' → e'.event_type ≠ "snapshot" := by
      rw [hs₁]
      exact hbuf
    obtain ⟨_, _, _, hmem⟩ := flushBufferE_ok hfl
    refine ⟨flushBufferE_booksOk hfl (hbuf₁ _) hgood₁, ?_⟩
    intro k' e' he'
    exact hbuf₁ k' e' (hmem k' e' he')

/-! ## Claim C6 — orderbook projection invariants -/

/-- C6 counterexample: a market-data snapshot whose payload itself carries a
zero-quantity level is copied into the projection unfiltered, so a reachable
orderbook contains a level with quantity "0". -/
theorem C6_counterexample :
    (jsMapGet (runOr [zeroQtySnapshot]).state.orderbooks (some "BTC_USD")).map
      OrderbookState.bids = some [("100", "0")] ∧
    booksOk (runOr [zeroQtySnapshot]).state = false := by
  refine ⟨by decide, by decide⟩

/-- C6 (amended): provided every dispatched market-data snapshot payload
respects the server contract (per side: price-unique levels, no quantity
"0"), every orderbook projection of every reachable store has no two bid
levels and no two ask levels sharing a price, and no level with quantity
"0".  (Deltas cannot break this: `mergeLevels` deduplicates by price and
deletes zero-quantity levels.) -/
theorem C6_orderbook_invariants :
    ∀ (es : List BaseEvent) (s : DexStateStore),
      runE initStore es = .ok s →
      (∀ e ∈ es, snapPayloadOk e = true) →
      booksOk s.state = true := by
  have main : ∀ (es : List BaseEvent) (s : DexStateStore),
      (∀ e ∈ es, snapPayloadOk e = true) →
      booksOk s.state = true →
      (∀ k e', e' ∈ bufferAt s k → e'.event_type ≠ "snapshot") →
      ∀ s', runE s es = .ok s' → booksOk s'.state = true := by
    intro es
    induction es with
    | nil =>
      intro s _ hgood _ s' h
      unfold runE at h
      cases h
      exact hgood
    | cons e rest ih =>
      intro s hes hgood hbuf s' h
      unfold runE at h
      cases hd : dispatchE s e with
      | error msg => rw [hd] at h; cases h
      | ok s₁ =>
        rw [hd] at h
        obtain ⟨hgood₁, hbuf₁⟩ :=
          dispatchE_booksOk hd (hes e (List.mem_cons_self _ _)) hgood hbuf
        exact ih s₁ (fun e' he' => hes e' (List.mem_cons_of_mem _ he')) hgood₁ hbuf₁ s' h
  intro es s hrun hes
  refine main es initStore hes (by decide) ?_ s hrun
  intro k e' he'
  simp [bufferAt, initStore, jsMapGet] at he'

/-- Witness for C6 on the S1 run: both fixture payloads respect the
contract, and the resulting books are good. -/
theorem C6_orderbook_invariants_witness :
    booksOk (runOr [demoSnapshot 100, demoDelta 101]).state = true :=
  C6_orderbook_invariants [demoSnapshot 100, demoDelta 101]
    (runOr [demoSnapshot 100, demoDelta 101]) (by rfl) (by decide)

/-! ## Claim C9 — subscribe acknowledgement semantics -/

/-- The params used by the C9 fixtures. -/
def c9ps : List (String × String) := [("symbol", "BTC_USD")]

/-- A client with one outstanding (pending) subscription attempt. -/
def c9pendingClient : WsClient := (subscribe initClient "market_data" c9ps).1

/-- A client with one active (acknowledged) subscription. -/
def c9activeClient : WsClient :=
  handleMessage initClient (.subscribedF "market_data" c9ps 100)

/-- C9 counterexample: a server `error` frame received while a subscription
attempt is outstanding does *not* reject the attempt: `_handleMessage` only
invokes `onError`, the pending entry and its promise survive untouched and
stay pending forever. -/
theorem C9_counterexample :
    c9pendingClient.pendingSubs = [(subKey "market_data" c9ps, 0)] ∧
    (handleMessage c9pendingClient (.errorF "RATE_LIMIT_EXCEEDED" "slow down")).promises =
      [PromiseStatus.pending] ∧
    (handleMessage c9pendingClient (.errorF "RATE_LIMIT_EXCEEDED" "slow down")).pendingSubs =
      c9pendingClient.pendingSubs := by
  refine ⟨by decide, by decide, by decide⟩

/-- C9 (amended): a `subscribed` acknowledgement for exactly the pending
(channel, params) key resolves that attempt's promise and records the
subscription; a second subscribe for an already-active key returns
immediately without sending a frame or changing state; a server `error`
frame only reaches `onError` — it leaves subscriptions, pending attempts and
their promises unchanged (no rejection ever happens). -/
theorem C9_subscribe_semantics :
    (∀ (c : WsClient) (ch : String) (ps : List (String × String)),
      (jsMapGet c.subscriptions (subKey ch ps)).isSome = true →
      subscribe c ch ps = (c, .alreadyActive)) ∧
    (∀ (c : WsClient) (ch : String) (ps : List (String × String)) (q pid : Nat),
      jsMapGet c.pendingSubs (subKey ch ps) = some pid →
      pid < c.promises.length →
      (handleMessage c (.subscribedF ch ps q)).promises[pid]? = some .resolved ∧
      jsMapGet (handleMessage c (.subscribedF ch ps q)).subscriptions (subKey ch ps) =
        some { channel := ch, params := ps, lastSeq := q }) ∧
    (∀ (c : WsClient) (code msg : String),
      (handleMessage c (.errorF code msg)).promises = c.promises ∧
      (handleMessage c (.errorF code msg)).pendingSubs = c.pendingSubs ∧
      (handleMessage c (.errorF code msg)).subscriptions = c.subscriptions ∧
      (handleMessage c (.errorF code msg)).errorCalls = c.errorCalls ++ [(code, msg)]) := by
  refine ⟨?_, ?_, ?_⟩
  · intro c ch ps hact
    simp only [subscribe, hact, if_true]
  · intro c ch ps q pid hpend hlt
    simp only [handleMessage, hpend]
    constructor
    · exact List.getElem?_set_self (by simpa using hlt)
    · exact jsMapGet_set_self _ _ _
  · intro c code msg
    exact ⟨rfl, rfl, rfl, rfl⟩

/-- Witness for C9: the idempotent-subscribe and acknowledgement parts at
the concrete fixtures. -/
theorem C9_subscribe_semantics_witness :
    subscribe c9activeClient "market_data" c9ps = (c9activeClient, .alreadyActive) ∧
    ((handleMessage c9pendingClient (.subscribedF "market_data" c9ps 100)).promises[0]? =
        some .resolved ∧
      jsMapGet (handleMessage c9pendingClient
          (.subscribedF "market_data" c9ps 100)).subscriptions (subKey "market_data" c9ps) =
        some { channel := "market_data", params := c9ps, lastSeq := 100 }) :=
  ⟨C9_subscribe_semantics.1 c9activeClient "market_data" c9ps (by decide),
   C9_subscribe_semantics.2.1 c9pendingClient "market_data" c9ps 100 0
      (by decide) (by decide)⟩

/-! ## Claim C10 — transport-level gap handling -/

/-- The C10 fixture: two subscriptions on `market_data` with different
cursors (events carry one sequence per channel-delivery in `_handleEvent`,
which walks every subscription of the event's channel). -/
def c10Client : WsClient :=
  handleMessage
    (handleMessage initClient (.subscribedF "market_data" [("symbol", "BTC")] 99))
    (.subscribedF "market_data" [("symbol", "ETH")] 50)

/-- A market-data event at sequence 100. -/
def c10Event : BaseEvent :=
  { event_id := "e100"
    event_type := "delta"
    sequence := 100
    timestamp := "0"
    source := "market_data"
    payload := .obj { symbol := some "BTC" } }

/-- C10 counterexample: sequence 100 is a gap for the ETH subscription
(lastSeq 50), so the event is dropped and a recovery request is sent — but
the BTC subscription, iterated first, already had its cursor advanced from
99 to 100, contradicting "no subscription cursor is advanced". -/
theorem C10_counterexample :
    c10Client.recovering = false ∧
    (jsMapGet c10Client.subscriptions (subKey "market_data" [("symbol", "ETH")])).map
      SubscriptionState.lastSeq = some 50 ∧
    50 + 1 < c10Event.sequence ∧
    (jsMapGet c10Client.subscriptions (subKey "market_data" [("symbol", "BTC")])).map
      SubscriptionState.lastSeq = some 99 ∧
    (jsMapGet (handleEvent c10Client c10Event).subscriptions
        (subKey "market_data" [("symbol", "BTC")])).map SubscriptionState.lastSeq =
      some 100 ∧
    (handleEvent c10Client c10Event).handledEvents = [] := by
  refine ⟨by decide, by decide, by decide, by decide, by decide, by decide⟩

/-- The `_handleEvent` scan finds the first gap-detecting subscription when
one exists and the client is not recovering. -/
theorem scanSubs_gap {e : BaseEvent} :
    ∀ {subs : List (String × SubscriptionState)},
    (∃ kv ∈ subs, kv.2.channel = e.source ∧ kv.2.lastSeq + 1 < e.sequence) →
    ∃ g subs', scanSubs e false subs = (some g, subs') ∧
      g.channel = e.source ∧ g.lastSeq + 1 < e.sequence ∧ ∃ kv ∈ subs, kv.2 = g := by
  intro subs
  induction subs with
  | nil =>
    intro hex
    rcases hex with ⟨kv, hmem, _⟩
    cases hmem
  | cons hd t ih =>
    intro hex
    rcases hd with ⟨key, sub⟩
    simp only [scanSubs]
    by_cases hch : sub.channel = e.source
    · rw [if_pos hch]
      by_cases hgap : compareSeq e.sequence (sub.lastSeq + 1) > 0
      · rw [if_pos ⟨hgap, by simp⟩]
        exact ⟨sub, (key, sub) :: t, rfl, hch, compareSeq_pos_iff.mp hgap,
          (key, sub), List.mem_cons_self _ _, rfl⟩
      · rw [if_neg (fun hand => hgap hand.1)]
        have hext : ∃ kv ∈ t, kv.2.channel = e.source ∧ kv.2.lastSeq + 1 < e.sequence := by
          rcases hex with ⟨kv, hmem, hkv⟩
          rcases List.mem_cons.mp hmem with heq | hmem'
          · exfalso
            apply hgap
            apply compareSeq_pos_iff.mpr
            rw [heq] at hkv
            exact hkv.2
          · exact ⟨kv, hmem', hkv⟩
        obtain ⟨g, subs', hscan, hg1, hg2, kvw, hkvmem, hkveq⟩ := ih hext
        rw [hscan]
        exact ⟨g, _, rfl, hg1, hg2, kvw, List.mem_cons_of_mem _ hkvmem, hkveq⟩
    · rw [if_neg hch]
      have hext : ∃ kv ∈ t, kv.2.channel = e.source ∧ kv.2.lastSeq + 1 < e.sequence := by
        rcases hex with ⟨kv, hmem, hkv⟩
        rcases List.mem_cons.mp hmem with heq | hmem'
        · exfalso
          rw [heq] at hkv
          exact hch hkv.1
        · exact ⟨kv, hmem', hkv⟩
      obtain ⟨g, subs', hscan, hg1, hg2, kvw, hkvmem, hkveq⟩ := ih hext
      rw [hscan]
      exact ⟨g, _, rfl, hg1, hg2, kvw, List.mem_cons_of_mem _ hkvmem, hkveq⟩

/-- C10 (amended): on a live, non-recovering connection, an event whose
sequence exceeds `lastSeq + 1` of some subscription on its channel makes the
transport send a `snapshot_since` frame for the first gap-detecting
subscription (carrying the float-rounded cursor) and drop the event — no
registered handler is invoked and the recovering flag is raised.
Subscriptions on the same channel iterated before the gap detector may still
have their cursors advanced. -/
theorem C10_gap_drop :
    ∀ (c : WsClient) (e : BaseEvent), c.recovering = false →
    (∃ kv ∈ c.subscriptions, kv.2.channel = e.source ∧ kv.2.lastSeq + 1 < e.sequence) →
    (handleEvent c e).handledEvents = c.handledEvents ∧
    (handleEvent c e).recovering = true ∧
    ∃ sub, (∃ kv ∈ c.subscriptions, kv.2 = sub) ∧ sub.channel = e.source ∧
      sub.lastSeq + 1 < e.sequence ∧
      (handleEvent c e).sentFrames = c.sentFrames ++
        [.snapshotSinceF sub.channel sub.params (natToFloat64 sub.lastSeq)] := by
  intro c e hrec hex
  obtain ⟨g, subs', hscan, hg1, hg2, hgmem⟩ := scanSubs_gap hex
  unfold handleEvent
  rw [hrec, hscan]
  exact ⟨rfl, rfl, g, hgmem, hg1, hg2, rfl⟩

/-- Witness for C10 at a single-subscription client: cursor 100, event
sequence 102. -/
theorem C10_gap_drop_witness :
    (handleEvent c9activeClient (demoDelta 102)).handledEvents =
      c9activeClient.handledEvents ∧
    (handleEvent c9activeClient (demoDelta 102)).recovering = true ∧
    ∃ sub, (∃ kv ∈ c9activeClient.subscriptions, kv.2 = sub) ∧
      sub.channel = (demoDelta 102).source ∧
      sub.lastSeq + 1 < (demoDelta 102).sequence ∧
      (handleEvent c9activeClient (demoDelta 102)).sentFrames =
        c9activeClient.sentFrames ++
          [.snapshotSinceF sub.channel sub.params (natToFloat64 sub.lastSeq)] :=
  C10_gap_drop c9activeClient (demoDelta 102) (by decide)
    ⟨(subKey "market_data" c9ps, { channel := "market_data", params := c9ps, lastSeq := 100 }),
      by decide, by decide, by decide⟩

/-- Witness for C5: the overflow behaviour at a concrete full buffer, and
the bound on the S1 run. -/
theorem C5_buffer_cap_witness :
    (bufferAt (bufferDelta fullBufferStore "market_data::BTC_USD" (demoDelta 103))
        "market_data::BTC_USD" = [] ∧
      (bufferDelta fullBufferStore "market_data::BTC_USD" (demoDelta 103)).ghostRequests =
        fullBufferStore.ghostRequests ++
          [{ channel := (demoDelta 103).source, params := requestParams (demoDelta 103),
             sinceSeq := 0 }]) ∧
    (bufferAt (runOr [demoSnapshot 100, demoDelta 101]) "market_data::BTC_USD").length ≤
      MAX_BUFFER_SIZE :=
  ⟨C5_buffer_cap.1 fullBufferStore "market_data::BTC_USD" (demoDelta 103)
      (by simp [fullBufferStore, bufferAt, jsMapGet, initStore]),
   C5_buffer_cap.2 [demoSnapshot 100, demoDelta 101] (runOr [demoSnapshot 100, demoDelta 101])
      (by rfl) "market_data::BTC_USD"⟩

end Dex
